import Mathlib

/-!
Verification of the lazaro session-logging and personal-record engine.

This file is a shallow embedding of `src/commands/session.rs` (together with
the data it touches) into Lean 4.  Rows of the SQLite tables become Lean
structures, the database becomes a record of lists of rows (list order is
`rowid`/insertion order), and each session subcommand becomes a function from
a database and its arguments to a new database plus a structured outcome.

Modelling conventions, all noted again at the definitions they concern:
* SQL `REAL` (`f32`) values are modelled as `ℚ`.  Every concrete value used
  in a counterexample below is a small dyadic/exact value for which `f32`
  arithmetic is exact, so the rational model and the floating-point program
  agree at those inputs.
* Rust `usize`/`i64` arithmetic is modelled on `Nat`/`Int` with explicit
  two's-complement wrapping (`% 2^64`), matching release-profile semantics;
  where a debug build would instead abort on overflow this is noted.
* `datetime('now')` is modelled by an explicit `now : Nat` parameter passed
  to each command; all statements of one command share it.
* `ROW_NUMBER() OVER (ORDER BY ...)` is modelled by a stable insertion sort,
  ties resolved by rowid (list) order.
* `uuid::new_v4()` primary keys are modelled by a fresh-id counter `nextId`
  stored in the database value.
-/

namespace Lazaro

/-- Two to the sixty-fourth: the modulus of `usize`/`i64` arithmetic. -/
def USIZE : Nat := 2 ^ 64

/-- Wrapping `usize` decrement, i.e. `x - 1` in a release build (a debug
build aborts when `x = 0`). -/
def usizeSub1 (x : Nat) : Nat := (x + (USIZE - 1)) % USIZE

/-- Reinterpret a `usize` value as `i64` (`as i64`). -/
def toI64 (n : Nat) : Int :=
  if n % USIZE < 2 ^ 63 then ((n % USIZE : Nat) : Int)
  else ((n % USIZE : Nat) : Int) - (USIZE : Int)

/-- Reinterpret an `i64` value as `usize` (`as usize`). -/
def i64ToUsize (z : Int) : Nat := (z % (USIZE : Int)).toNat

/-- Epley estimated one-rep max, from `epley_1rm` in `session.rs`:
`if reps == 0 { 0.0 } else { weight * (1.0 + reps as f32 / 30.0) }`. -/
def epley_1rm (weight : ℚ) (reps : ℤ) : ℚ :=
  if reps = 0 then 0 else weight * (1 + (reps : ℚ) / 30)

/-- Row of `training_sessions`. -/
structure SessionRow where
  id : Nat
  programBlockId : Nat
  startTime : Nat
  endTime : Option Nat
  deriving DecidableEq

/-- Row of `training_session_exercises`;
list position in the database is rowid (insertion) order. -/
structure SessionExRow where
  id : Nat
  sessionId : Nat
  exerciseId : Nat
  notes : Option String
  deriving DecidableEq

/-- Row of `exercise_sets`. -/
structure SetRow where
  id : Nat
  sessionExerciseId : Nat
  weight : ℚ
  reps : ℤ
  bodyweight : Bool
  timestamp : Nat
  deriving DecidableEq

/-- Row of `personal_records`.  The columns `weight`, `reps`,
`estimated_1rm`, `date` are those every `INSERT` in `src/` provides.  The
`bodyweight` column is referenced by the bodyweight branch of
`SessionCmd::Edit` (`WHERE exercise_id = ? AND bodyweight = 1`) but never
written by any `INSERT` in `src/`; its schema lives in the migrations, which
are not part of `src/`.  Modelled from the spec: the Personal Record entity
carries its source weight/reps/date, and a row inserted without the
`bodyweight` column takes the default, modelled as `false`. -/
structure PRRow where
  exerciseId : Nat
  weight : ℚ
  reps : ℤ
  estimated1rm : ℚ
  date : Nat
  bodyweight : Bool
  deriving DecidableEq

/-- Row of `exercises` (the fields the session engine touches). -/
structure ExerciseRow where
  id : Nat
  name : String
  estimatedOneRm : Option ℚ
  currentPrDate : Option Nat
  deriving DecidableEq

/-- Row of `program_exercises` (the fields the session engine touches). -/
structure ProgExRow where
  id : Nat
  programBlockId : Nat
  exerciseId : Nat
  sets : ℤ
  orderIndex : ℤ
  deriving DecidableEq

/-- Row of `programs`. -/
structure ProgramRow where
  id : Nat
  name : String
  deriving DecidableEq

/-- Row of `program_blocks`. -/
structure BlockRow where
  id : Nat
  programId : Nat
  name : String
  deriving DecidableEq

/-- The database.  Each list is a table in rowid (insertion) order;
`exercises` is in `idx` (autoincrement) order.  `nextId` models fresh
primary-key generation. -/
structure DB where
  programs : List ProgramRow
  blocks : List BlockRow
  progExercises : List ProgExRow
  exercises : List ExerciseRow
  sessions : List SessionRow
  sessionExs : List SessionExRow
  sets : List SetRow
  personalRecords : List PRRow
  nextId : Nat
  deriving DecidableEq

/-- Stable insertion into a sorted list (kept structural so that the kernel
can evaluate it; models the deterministic part of SQL `ORDER BY`). -/
def insertOn (le : α → α → Bool) (x : α) : List α → List α
  | [] => [x]
  | y :: ys => if le x y then x :: y :: ys else y :: insertOn le x ys

/-- Stable insertion sort; models `ORDER BY`, ties kept in rowid order. -/
def sortOn (le : α → α → Bool) : List α → List α
  | [] => []
  | x :: xs => insertOn le x (sortOn le xs)

/-- The `current_session` view, used by Start/Cancel/Edit/Swap/AddEx/Note.
Modelled from the spec: the view is defined in the migrations (not under
`src/`); per the spec, the current session is "the Training Session row with
a null end timestamp" and at most one is expected, so `LIMIT 1` picks the
first such row. -/
def currentSession (db : DB) : Option SessionRow :=
  db.sessions.find? (fun s => s.endTime.isNone)

/-- The session-exercises of one session in `rowid` (insertion/display)
order, as produced by the `session_exercise_order` CTE. -/
def sessionExsOf (db : DB) (sid : Nat) : List SessionExRow :=
  db.sessionExs.filter (fun t => t.sessionId = sid)

/-- The sets of one session-exercise ordered by timestamp, as produced by
`ROW_NUMBER() OVER (PARTITION BY session_exercise_id ORDER BY timestamp)`:
position `k` in this list is set number `k+1`. -/
def setsOf (db : DB) (seId : Nat) : List SetRow :=
  sortOn (fun a b => a.timestamp ≤ b.timestamp)
    (db.sets.filter (fun es => es.sessionExerciseId = seId))

/-- `LIMIT 1 OFFSET ?` with an `i64` offset: SQLite treats a negative
offset as zero. -/
def nthByI64Offset (l : List α) (off : Int) : Option α :=
  l[(max 0 off).toNat]?

/-- Row with `ROW_NUMBER() ... = idx` (1-based); no row matches a
non-positive index. -/
def rowByRn (l : List α) (idx : Int) : Option α :=
  if 1 ≤ idx then l[(idx - 1).toNat]? else none

/-- The exercise's best stored record:
`SELECT ... FROM personal_records WHERE exercise_id = ? ORDER BY
estimated_1rm DESC LIMIT 1`. -/
def bestPR (db : DB) (exId : Nat) : Option PRRow :=
  (sortOn (fun a b => b.estimated1rm ≤ a.estimated1rm)
    (db.personalRecords.filter (fun p => p.exerciseId = exId))).head?

/-- The exercise's best bodyweight rep count:
`SELECT reps FROM personal_records WHERE exercise_id = ? AND bodyweight = 1
ORDER BY reps DESC LIMIT 1`. -/
def bestBWReps (db : DB) (exId : Nat) : Option ℤ :=
  ((sortOn (fun a b => b.reps ≤ a.reps)
    (db.personalRecords.filter
      (fun p => p.exerciseId = exId ∧ p.bodyweight = true))).head?).map
    (fun p => p.reps)

/-- The prescription's set count for one exercise in one block:
scalar subquery `SELECT sets FROM program_exercises WHERE exercise_id = ?
AND program_block_id = ?` (first row if several). -/
def programSets (db : DB) (blockId exId : Nat) : Option ℤ :=
  (db.progExercises.find?
    (fun pe => pe.programBlockId = blockId ∧ pe.exerciseId = exId)).map
    (fun pe => pe.sets)

/-- The `total_sets` query of `SessionCmd::Edit`: prescribed set count
(`COALESCE(sets, 2)`) plus the count of already-logged sets whose 0-based
set number is `>= sets`.  When no prescription row exists the inner
`set_num >= (SELECT sets FROM program_sets)` compares against SQL NULL and
matches nothing, so the extras term is 0. -/
def totalSets (db : DB) (blockId exId seId : Nat) : ℤ :=
  let count := (setsOf db seId).length
  match programSets db blockId exId with
  | none => 2
  | some p =>
      p + (((List.range count).filter (fun k : Nat => p ≤ (k : ℤ))).length : ℤ)

/-- The `existing_set` query of `SessionCmd::Edit`: the row whose 1-based
set number equals `k` (an `i64` bind value). -/
def nthSet (db : DB) (seId : Nat) (k : Int) : Option SetRow :=
  if 1 ≤ k then (setsOf db seId)[(k - 1).toNat]? else none

/-- Resolve an exercise reference (used by Swap and AddEx): an integer is
`SELECT id FROM exercises ORDER BY idx LIMIT 1 OFFSET (idx - 1)`, a string
is an exact-name lookup.  The constructors model the result of
`parse::<i64>()` on the CLI string. -/
inductive Ref where
  | byIdx (i : Int)
  | byName (s : String)
  deriving DecidableEq

/-- Exercise resolution for Swap/AddEx. -/
def resolveExercise (db : DB) (r : Ref) : Option Nat :=
  match r with
  | .byIdx i => (nthByI64Offset db.exercises (i - 1)).map (fun e => e.id)
  | .byName s => (db.exercises.find? (fun e => e.name = s)).map (fun e => e.id)

/-- Program resolution for Start: `ROW_NUMBER() OVER (ORDER BY name)`
against an integer, exact name otherwise. -/
def resolveProgram (db : DB) (r : Ref) : Option Nat :=
  match r with
  | .byIdx i =>
      (rowByRn (sortOn (fun a b => a.name ≤ b.name) db.programs) i).map
        (fun p => p.id)
  | .byName s => (db.programs.find? (fun p => p.name = s)).map (fun p => p.id)

/-- Block resolution for Start, within one program. -/
def resolveBlock (db : DB) (pid : Nat) (r : Ref) : Option Nat :=
  let bs := db.blocks.filter (fun b => b.programId = pid)
  match r with
  | .byIdx i => (rowByRn (sortOn (fun a b => a.name ≤ b.name) bs) i).map
      (fun b => b.id)
  | .byName s => (bs.find? (fun b => b.name = s)).map (fun b => b.id)

/-- The weight CLI argument after the parse in `SessionCmd::Edit`:
`"bw"` (case-insensitive), a numeric weight, or an unparseable string. -/
inductive WeightArg where
  | bw
  | kg (w : ℚ)
  | invalid
  deriving DecidableEq

/-- The `(is_bodyweight, parsed_weight)` pair of `SessionCmd::Edit`, `none`
when the argument parses as neither. -/
def parseWeight : WeightArg → Option (Bool × Option ℚ)
  | .bw => some (true, none)
  | .kg w => some (false, some w)
  | .invalid => none

/-- Arguments of `SessionCmd::Edit` (`cli.rs`): `exercise : usize`,
`reps : i32`, `set : Option<usize>`, `new : bool`. -/
structure EditArgs where
  exercise : Nat
  weight : WeightArg
  reps : ℤ
  set : Option Nat
  new : Bool
  deriving DecidableEq

/-- Update the targeted existing set row in place (`UPDATE exercise_sets SET
weight = ?, reps = ?, bodyweight = ? WHERE id = ?`; the timestamp is not
touched). -/
def updateSetRow (db : DB) (setId : Nat) (w : ℚ) (r : ℤ) (bw : Bool) : DB :=
  { db with sets := db.sets.map (fun s =>
      if s.id = setId then { s with weight := w, reps := r, bodyweight := bw }
      else s) }

/-- Insert a new set row timestamped now (`INSERT INTO exercise_sets ...
VALUES (?, ?, ?, ?, ?, datetime('now'))`). -/
def insertSetRow (db : DB) (seId : Nat) (w : ℚ) (r : ℤ) (bw : Bool)
    (now : Nat) : DB :=
  { db with
    sets := db.sets ++ [⟨db.nextId, seId, w, r, bw, now⟩],
    nextId := db.nextId + 1 }

/-- Persist a new personal record and refresh the exercise's cached fields
(`INSERT INTO personal_records (exercise_id, weight, reps, estimated_1rm,
date) VALUES (...)` followed by `UPDATE exercises SET current_pr_date =
datetime('now'), estimated_one_rm = ? WHERE id = ?`).  The insert does not
provide the `bodyweight` column, so the new row carries its default
(`false`, see `PRRow`). -/
def recordPr (db : DB) (exId : Nat) (w : ℚ) (r : ℤ) (est : ℚ)
    (now : Nat) : DB :=
  { db with
    personalRecords := db.personalRecords ++ [⟨exId, w, r, est, now, false⟩],
    exercises := db.exercises.map (fun e =>
      if e.id = exId then
        { e with estimatedOneRm := some est, currentPrDate := some now }
      else e) }

/-- The `is_pr` decision of `SessionCmd::Edit`: for a weighted set, compare
the candidate's `weight × reps` product against the product of the stored
record with the highest `estimated_1rm` (true when none exists); for a
bodyweight set, compare `reps >=` the best stored bodyweight rep count
(true when none exists). -/
def editIsPr (db : DB) (exId : Nat) (isBw : Bool) (pw : Option ℚ)
    (reps : ℤ) : Bool :=
  if isBw = false then
    match bestPR db exId with
    | some pr => decide (pr.weight * (pr.reps : ℚ) < pw.getD 0 * (reps : ℚ))
    | none => true
  else
    match bestBWReps db exId with
    | some m => decide (m ≤ reps)
    | none => true

/-- Outcome of `SessionCmd::Edit`. -/
inductive EditOutcome where
  | noActiveSession
  | invalidWeight
  | noExerciseAtIndex (i : Nat)
  | noSetAtIndex (shown : Nat) (maxSets : ℤ)
  | logged (setIndex : Nat) (isPr : Bool)
  deriving DecidableEq

/-- The 0-based set index `SessionCmd::Edit` targets: `s - 1` (wrapping
`usize` subtraction) for an explicit 1-based index, and otherwise the count
of already-logged sets — the `--new` branch and the default branch run the
same `COUNT(*)` query. -/
def editSetIndex (db : DB) (a : EditArgs) (seId : Nat) : Nat :=
  match a.set with
  | some s => usizeSub1 s
  | none => (setsOf db seId).length

/-- The set write of `SessionCmd::Edit`: update the existing row with this
1-based set number if there is one, else insert a new row timestamped now.
The bind value is `(set_index + 1) as i64` (wrapping `usize` addition). -/
def editWrite (db : DB) (a : EditArgs) (seId : Nat) (isBw : Bool)
    (pw : Option ℚ) (now : Nat) : DB :=
  let w : ℚ := if isBw then 0 else pw.getD 0
  match nthSet db seId (toI64 ((editSetIndex db a seId + 1) % USIZE)) with
  | some srow => updateSetRow db srow.id w a.reps isBw
  | none => insertSetRow db seId w a.reps isBw now

/-- `SessionCmd::Edit`.  Mirrors `session.rs` step by step: active-session
check, weight parse, exercise lookup by insertion-order offset, set-index
defaulting, the `total_sets` bound check (skipped under `--new`),
update-or-insert of the set row, the `is_pr` decision (run inside the same
transaction, after the set write) and, on a positive result, the record
insert plus cache refresh. -/
def edit (db : DB) (a : EditArgs) (now : Nat) : DB × EditOutcome :=
  match currentSession db with
  | none => (db, .noActiveSession)
  | some sess =>
    match parseWeight a.weight with
    | none => (db, .invalidWeight)
    | some (isBw, pw) =>
      match nthByI64Offset (sessionExsOf db sess.id)
          (toI64 (usizeSub1 a.exercise)) with
      | none => (db, .noExerciseAtIndex a.exercise)
      | some se =>
        let setIndex := editSetIndex db a se.id
        let total := totalSets db sess.programBlockId se.exerciseId se.id
        if a.new = false ∧ i64ToUsize total ≤ setIndex then
          (db, .noSetAtIndex ((setIndex + 1) % USIZE) total)
        else
          let db1 := editWrite db a se.id isBw pw now
          let isPr := editIsPr db1 se.exerciseId isBw pw a.reps
          let db2 :=
            if isPr then
              recordPr db1 se.exerciseId (if isBw then 0 else pw.getD 0)
                a.reps (if isBw then 0 else epley_1rm (pw.getD 0) a.reps) now
            else db1
          (db2, .logged setIndex isPr)

/-- The joined rows of `SessionCmd::End`'s sets query: for every set of the
session (`JOIN training_session_exercises`, `JOIN exercises` — rows whose
session-exercise or exercise is missing are dropped by the joins), the
tuple `(exercise_id, reps, weight, bodyweight)`, ordered by set timestamp. -/
def sessionSetRows (db : DB) (sid : Nat) : List (Nat × ℤ × ℚ × Bool) :=
  (sortOn (fun a b => a.timestamp ≤ b.timestamp) db.sets).filterMap
    (fun es =>
      (db.sessionExs.find? (fun t => t.id = es.sessionExerciseId)).bind
        (fun t =>
          if t.sessionId = sid ∧ db.exercises.any (fun e => e.id = t.exerciseId)
          then some (t.exerciseId, es.reps, es.weight, es.bodyweight)
          else none))

/-- First-occurrence deduplication of the exercise ids, standing in for the
`HashMap` grouping of `SessionCmd::End`.  The map's iteration order is
unspecified in Rust; order only affects the rowid order of the inserted
record rows, because each exercise's decision reads only pre-End state and
each update touches only its own exercise. -/
def distinctKeys (l : List Nat) : List Nat :=
  l.foldl (fun acc k => if k ∈ acc then acc else acc ++ [k]) []

/-- The best-candidate fold of `SessionCmd::End` over one exercise's sets
`(reps, weight, bodyweight)`, accumulating `(max_1rm, pr_weight, pr_reps)`
from `(0.0, 0.0, 0)`: a bodyweight set only raises `pr_reps` (zeroing
`pr_weight`), a weighted set takes over all three when its Epley estimate
beats `max_1rm`. -/
def bestCandidate (sets : List (ℤ × ℚ × Bool)) : ℚ × ℚ × ℤ :=
  sets.foldl
    (fun acc s =>
      if s.2.2 then
        if acc.2.2 < s.1 then (acc.1, 0, s.1) else acc
      else
        let est := epley_1rm s.2.1 s.1
        if acc.1 < est then (est, s.2.1, s.1) else acc)
    (0, 0, 0)

/-- The `is_pr` SQL of `SessionCmd::End`.  `current_pr` is the stored record
with the highest `estimated_1rm`.  SQL three-valued logic matters here: when
the relevant scalar subquery is empty (no stored record at all, or the
bodyweight arm's `WHERE weight = 0` filters the single `current_pr` row
away), the comparison yields NULL, and sqlx's SQLite driver decodes the NULL
boolean column as `false` — so no record at all means `is_pr` is false. -/
def endIsPr (db : DB) (exId : Nat) (prWeight : ℚ) (prReps : ℤ)
    (max1rm : ℚ) : Bool :=
  match bestPR db exId with
  | none => false
  | some pr =>
      if prWeight = 0 then
        if pr.weight = 0 then decide (pr.reps < prReps) else false
      else decide (pr.estimated1rm < max1rm)

/-- Outcome of `SessionCmd::End`. -/
inductive EndOutcome where
  | noActiveSession
  | ended (sessionId : Nat)
  deriving DecidableEq

/-- The per-exercise record updates `SessionCmd::End` collects before
applying any of them (`pr_updates` in the source): for every exercise of
the session — first-occurrence order standing in for the `HashMap`
grouping — the best candidate over its sets, kept when the `is_pr` SQL
accepts it against pre-End state. -/
def endPrUpdates (db : DB) (sid : Nat) : List (Nat × ℚ × ℤ × ℚ) :=
  let rows := sessionSetRows db sid
  (distinctKeys (rows.map (fun r => r.1))).filterMap (fun exId =>
    let c := bestCandidate ((rows.filter (fun r => r.1 = exId)).map
      (fun r => r.2))
    if endIsPr db exId c.2.1 c.2.2 c.1 then
      some (exId, c.2.1, c.2.2, c.1)
    else none)

/-- `SessionCmd::End`: find the active session (its query also joins
`program_blocks`, so a session whose block row is missing is invisible),
collect the per-exercise record updates, apply all record inserts and
cache refreshes, and finally stamp the end timestamp. -/
def endSession (db : DB) (now : Nat) : DB × EndOutcome :=
  match db.sessions.find? (fun s =>
      s.endTime.isNone ∧ db.blocks.any (fun b => b.id = s.programBlockId)) with
  | none => (db, .noActiveSession)
  | some sess =>
    let updates := endPrUpdates db sess.id
    let db1 := updates.foldl
      (fun d u => recordPr d u.1 u.2.1 u.2.2.1 u.2.2.2 now) db
    let db2 := { db1 with sessions := db1.sessions.map (fun s =>
        if s.id = sess.id then { s with endTime := some now } else s) }
    (db2, .ended sess.id)

/-- Append one session-exercise row (`INSERT INTO
training_session_exercises (id, training_session_id, exercise_id)`). -/
def insertSessionEx (db : DB) (sid exId : Nat) : DB :=
  { db with
    sessionExs := db.sessionExs ++ [⟨db.nextId, sid, exId, none⟩],
    nextId := db.nextId + 1 }

/-- Outcome of `SessionCmd::Start`. -/
inductive StartOutcome where
  | noProgram
  | noBlock
  | alreadyActive (id : Nat)
  | started (id : Nat)
  deriving DecidableEq

/-- `SessionCmd::Start`: resolve the program, then the block (each failure
returns with no mutation), then check `current_session` (returning with no
mutation when one is active), then insert the session row and one
session-exercise per block prescription in `order_index` order (the
prescription query joins `exercises`, dropping rows whose exercise is
missing). -/
def start (db : DB) (progRef blockRef : Ref) (now : Nat) :
    DB × StartOutcome :=
  match resolveProgram db progRef with
  | none => (db, .noProgram)
  | some pid =>
    match resolveBlock db pid blockRef with
    | none => (db, .noBlock)
    | some bid =>
      match currentSession db with
      | some s => (db, .alreadyActive s.id)
      | none =>
        let sid := db.nextId
        let db1 : DB :=
          { db with
            sessions := db.sessions ++ [⟨sid, bid, now, none⟩],
            nextId := db.nextId + 1 }
        let pes := sortOn (fun a b => a.orderIndex ≤ b.orderIndex)
          ((db.progExercises.filter (fun pe => pe.programBlockId = bid)).filter
            (fun pe => db.exercises.any (fun e => e.id = pe.exerciseId)))
        let db2 := pes.foldl (fun d pe => insertSessionEx d sid pe.exerciseId) db1
        (db2, .started sid)

/-- Outcome of `SessionCmd::Cancel`. -/
inductive CancelOutcome where
  | noActiveSession
  | cancelled (id : Nat)
  deriving DecidableEq

/-- `SessionCmd::Cancel`: delete the current session row.  Modelled from the
spec: the schema (not under `src/`) declares cascading foreign keys, so the
session's session-exercises and their sets are removed with it. -/
def cancel (db : DB) : DB × CancelOutcome :=
  match currentSession db with
  | none => (db, .noActiveSession)
  | some sess =>
      let dead := db.sessionExs.filter (fun t => t.sessionId = sess.id)
      ({ db with
          sessions := db.sessions.filter (fun s => ¬ s.id = sess.id),
          sessionExs := db.sessionExs.filter (fun t => ¬ t.sessionId = sess.id),
          sets := db.sets.filter (fun es =>
            ¬ dead.any (fun t => t.id = es.sessionExerciseId)) },
        .cancelled sess.id)

/-- Outcome of `SessionCmd::Swap`. -/
inductive SwapOutcome where
  | noActiveSession
  | noExerciseAtIndex (i : Nat)
  | noNewExercise
  | swapped (oldSeId newExId : Nat)
  deriving DecidableEq

/-- `SessionCmd::Swap`: locate the session-exercise at the 1-based
insertion-order index, read the original exercise's prescribed set count
(`COALESCE`/`unwrap_or(2)`), resolve the incoming exercise, update or create
the incoming exercise's `program_exercises` row carrying over that set count
(`order_index` 999 on create), and finally update only the
`training_session_exercises` row's `exercise_id`. -/
def swap (db : DB) (exercise : Nat) (newRef : Ref) (_now : Nat) :
    DB × SwapOutcome :=
  match currentSession db with
  | none => (db, .noActiveSession)
  | some sess =>
    let blockId := sess.programBlockId
    match nthByI64Offset (sessionExsOf db sess.id)
        (toI64 (usizeSub1 exercise)) with
    | none => (db, .noExerciseAtIndex exercise)
    | some oldSe =>
      let originalSets : ℤ :=
        ((db.progExercises.find? (fun pe =>
            pe.programBlockId = blockId ∧ pe.exerciseId = oldSe.exerciseId)).map
          (fun pe => pe.sets)).getD 2
      match resolveExercise db newRef with
      | none => (db, .noNewExercise)
      | some newExId =>
        let db1 : DB :=
          match db.progExercises.find? (fun pe =>
              pe.programBlockId = blockId ∧ pe.exerciseId = newExId) with
          | some pe =>
              { db with progExercises := db.progExercises.map (fun q =>
                  if q.id = pe.id then { q with sets := originalSets } else q) }
          | none =>
              { db with
                progExercises := db.progExercises ++
                  [⟨db.nextId, blockId, newExId, originalSets, 999⟩],
                nextId := db.nextId + 1 }
        let db2 := { db1 with sessionExs := db1.sessionExs.map (fun t =>
            if t.id = oldSe.id then { t with exerciseId := newExId } else t) }
        (db2, .swapped oldSe.id newExId)

/-- Outcome of `SessionCmd::AddEx`. -/
inductive AddExOutcome where
  | noActiveSession
  | noExercise
  | added (seId : Nat)
  deriving DecidableEq

/-- `SessionCmd::AddEx`: append one session-exercise for the resolved
exercise; the `sets` argument is display metadata only and is not stored. -/
def addEx (db : DB) (exRef : Ref) (_setCount : ℤ) (_now : Nat) :
    DB × AddExOutcome :=
  match currentSession db with
  | none => (db, .noActiveSession)
  | some sess =>
    match resolveExercise db exRef with
    | none => (db, .noExercise)
    | some exId => (insertSessionEx db sess.id exId, .added db.nextId)

/-- Outcome of `SessionCmd::Note`. -/
inductive NoteOutcome where
  | noActiveSession
  | noExerciseAtIndex (i : Nat)
  | saved
  deriving DecidableEq

/-- `SessionCmd::Note`: overwrite the note of the session-exercise whose
1-based insertion-order row number equals the argument (bound as `i64`
without any subtraction, so index 0 matches nothing). -/
def note (db : DB) (exercise : Nat) (text : String) : DB × NoteOutcome :=
  match currentSession db with
  | none => (db, .noActiveSession)
  | some sess =>
    match rowByRn (sessionExsOf db sess.id) (toI64 (exercise % USIZE)) with
    | none => (db, .noExerciseAtIndex exercise)
    | some se =>
        ({ db with sessionExs := db.sessionExs.map (fun t =>
            if t.id = se.id then { t with notes := some text.trim } else t) },
          .saved)

/-- The mutating session subcommands (Show and Log are read-only and touch
no table). -/
inductive Cmd where
  | startCmd (p b : Ref)
  | cancelCmd
  | editCmd (a : EditArgs)
  | endCmd
  | swapCmd (i : Nat) (r : Ref)
  | addExCmd (r : Ref) (sets : ℤ)
  | noteCmd (i : Nat) (t : String)
  deriving DecidableEq

/-- One command dispatch: the database after running the subcommand. -/
def step (db : DB) (c : Cmd) (now : Nat) : DB :=
  match c with
  | .startCmd p b => (start db p b now).1
  | .cancelCmd => (cancel db).1
  | .editCmd a => (edit db a now).1
  | .endCmd => (endSession db now).1
  | .swapCmd i r => (swap db i r now).1
  | .addExCmd r s => (addEx db r s now).1
  | .noteCmd i t => (note db i t).1

/-- Number of training sessions with a null end timestamp — the quantity
the "at most one active session" invariant bounds. -/
def activeCount (db : DB) : Nat :=
  db.sessions.countP (fun s => s.endTime.isNone)

/-- Modelled from the spec: the PR Engine's `is_new_record` rule for a
weighted candidate — "if the candidate is weighted, compare
`estimated_1rm(candidate) > current_best.estimated_1rm` restricted to
weighted records"; "if none exists, any candidate with reps>0 is a record".
A record is weighted when its stored weight is not the bodyweight sentinel
0.  This definition exists only to be compared with the behaviour of
`edit`; it is not part of the program. -/
def specWeightedNewRecord (db : DB) (exId : Nat) (w : ℚ) (reps : ℤ) : Bool :=
  match (sortOn (fun a b => b.estimated1rm ≤ a.estimated1rm)
      (db.personalRecords.filter (fun p =>
        p.exerciseId = exId ∧ ¬ p.weight = 0))).head? with
  | some pr => decide (pr.estimated1rm < epley_1rm w reps)
  | none => decide (0 < reps)

/-- Fixture: the one exercise of the concrete databases below. -/
def exBench : ExerciseRow := ⟨1, "Bench Press", none, none⟩

/-- Fixture: one program with one block, one exercise, an active session
(id 100) over that block with one session-exercise (id 200), no sets and
no records. -/
def dbBase : DB :=
  { programs := [⟨20, "P"⟩]
    blocks := [⟨10, 20, "B"⟩]
    progExercises := []
    exercises := [exBench]
    sessions := [⟨100, 10, 0, none⟩]
    sessionExs := [⟨200, 100, 1, none⟩]
    sets := []
    personalRecords := []
    nextId := 1000 }

/-- Fixture: `dbBase` after a personal record 80 kg × 15 (Epley 120, a value
exact in `f32`), with the exercise cache mirroring it.  Reachable: logging
80 kg × 15 with no prior record makes it a record. -/
def dbPr120 : DB :=
  { dbBase with
    exercises := [⟨1, "Bench Press", some 120, some 5⟩]
    personalRecords := [⟨1, 80, 15, 120, 5, false⟩] }

/-- Fixture: `dbBase` after a personal record 40 kg × 15 (Epley 60, exact in
`f32`), with the exercise cache mirroring it. -/
def dbPr60 : DB :=
  { dbBase with
    exercises := [⟨1, "Bench Press", some 60, some 5⟩]
    personalRecords := [⟨1, 40, 15, 60, 5, false⟩] }

/-- Fixture: `dbBase` with one logged set 100 kg × 5 and no stored record —
the exact situation of the spec's End scenario. -/
def dbOneSet : DB :=
  { dbBase with sets := [⟨300, 200, 100, 5, false, 1⟩] }

/-- Fixture: `dbBase` with a prescription row for the exercise in the
session's block: 3 sets. -/
def dbPresc3 : DB :=
  { dbBase with progExercises := [⟨50, 10, 1, 3, 1⟩] }

/-- Fixture: `dbBase` with one stored bodyweight record of 10 reps whose
`bodyweight` column is set. -/
def dbBw10 : DB :=
  { dbBase with personalRecords := [⟨1, 0, 10, 0, 5, true⟩] }

/-- Fixture: `dbPr60` (stored record 40 kg × 15, estimated 1RM 60) with one
logged set 50 kg × 30 (estimated 1RM 100, exact in `f32`) — an End over it
writes one session-level record. -/
def dbEndSet : DB :=
  { dbPr60 with sets := [⟨300, 200, 50, 30, false, 1⟩] }

/-- Fixture: a second catalog exercise for the Swap scenario. -/
def exIncline : ExerciseRow := ⟨2, "Incline Press", none, none⟩

/-- Fixture: `dbBase` with a second catalog exercise and two sets already
logged on the session's (single) session-exercise — the spec's Swap
scenario. -/
def dbSwap : DB :=
  { dbBase with
    exercises := [exBench, exIncline]
    sets := [⟨300, 200, 100, 5, false, 1⟩, ⟨301, 200, 105, 5, false, 2⟩] }

/-!
Theorems.  Each claim of the specification gets one theorem below (plus a
counterexample theorem where the claim as stated fails, and a witness
theorem where the main theorem carries hypotheses).  The lemmas first:
which tables each write helper leaves untouched, congruence of the read
queries in the tables they read, and the stable-sort facts behind set
numbering.
-/

theorem updateSetRow_sessions (db : DB) (i : Nat) (w : ℚ) (r : ℤ)
    (b : Bool) : (updateSetRow db i w r b).sessions = db.sessions := rfl

theorem insertSetRow_sessions (db : DB) (seId : Nat) (w : ℚ) (r : ℤ)
    (b : Bool) (now : Nat) :
    (insertSetRow db seId w r b now).sessions = db.sessions := rfl

theorem recordPr_sessions (db : DB) (e : Nat) (w : ℚ) (r : ℤ) (est : ℚ)
    (now : Nat) : (recordPr db e w r est now).sessions = db.sessions := rfl

theorem updateSetRow_sessionExs (db : DB) (i : Nat) (w : ℚ) (r : ℤ)
    (b : Bool) : (updateSetRow db i w r b).sessionExs = db.sessionExs := rfl

theorem insertSetRow_sessionExs (db : DB) (seId : Nat) (w : ℚ) (r : ℤ)
    (b : Bool) (now : Nat) :
    (insertSetRow db seId w r b now).sessionExs = db.sessionExs := rfl

theorem recordPr_sessionExs (db : DB) (e : Nat) (w : ℚ) (r : ℤ) (est : ℚ)
    (now : Nat) : (recordPr db e w r est now).sessionExs = db.sessionExs :=
  rfl

theorem recordPr_sets (db : DB) (e : Nat) (w : ℚ) (r : ℤ) (est : ℚ)
    (now : Nat) : (recordPr db e w r est now).sets = db.sets := rfl

theorem updateSetRow_personalRecords (db : DB) (i : Nat) (w : ℚ) (r : ℤ)
    (b : Bool) :
    (updateSetRow db i w r b).personalRecords = db.personalRecords := rfl

theorem insertSetRow_personalRecords (db : DB) (seId : Nat) (w : ℚ) (r : ℤ)
    (b : Bool) (now : Nat) :
    (insertSetRow db seId w r b now).personalRecords = db.personalRecords :=
  rfl

theorem recordPr_personalRecords (db : DB) (e : Nat) (w : ℚ) (r : ℤ)
    (est : ℚ) (now : Nat) :
    (recordPr db e w r est now).personalRecords =
      db.personalRecords ++ [⟨e, w, r, est, now, false⟩] := rfl

theorem editWrite_sessions (db : DB) (a : EditArgs) (seId : Nat)
    (isBw : Bool) (pw : Option ℚ) (now : Nat) :
    (editWrite db a seId isBw pw now).sessions = db.sessions := by
  unfold editWrite
  repeat' split
  all_goals rfl

theorem editWrite_sessionExs (db : DB) (a : EditArgs) (seId : Nat)
    (isBw : Bool) (pw : Option ℚ) (now : Nat) :
    (editWrite db a seId isBw pw now).sessionExs = db.sessionExs := by
  unfold editWrite
  repeat' split
  all_goals rfl

theorem editWrite_personalRecords (db : DB) (a : EditArgs) (seId : Nat)
    (isBw : Bool) (pw : Option ℚ) (now : Nat) :
    (editWrite db a seId isBw pw now).personalRecords = db.personalRecords := by
  unfold editWrite
  repeat' split
  all_goals rfl

theorem edit_fst_sessions (db : DB) (a : EditArgs) (now : Nat) :
    (edit db a now).1.sessions = db.sessions := by
  unfold edit
  repeat' split
  all_goals try rfl
  all_goals simp [apply_ite Prod.fst, apply_ite DB.sessions, recordPr_sessions, editWrite_sessions]

theorem edit_fst_sessionExs (db : DB) (a : EditArgs) (now : Nat) :
    (edit db a now).1.sessionExs = db.sessionExs := by
  unfold edit
  repeat' split
  all_goals try rfl
  all_goals simp [apply_ite Prod.fst, apply_ite DB.sessionExs, recordPr_sessionExs, editWrite_sessionExs]

theorem swap_fst_sessions (db : DB) (i : Nat) (r : Ref) (now : Nat) :
    (swap db i r now).1.sessions = db.sessions := by
  unfold swap
  repeat' split
  all_goals try rfl
  all_goals dsimp only
  all_goals repeat' split
  all_goals rfl

theorem swap_fst_sets (db : DB) (i : Nat) (r : Ref) (now : Nat) :
    (swap db i r now).1.sets = db.sets := by
  unfold swap
  repeat' split
  all_goals try rfl
  all_goals dsimp only
  all_goals repeat' split
  all_goals rfl

theorem addEx_fst_sessions (db : DB) (r : Ref) (s : ℤ) (now : Nat) :
    (addEx db r s now).1.sessions = db.sessions := by
  unfold addEx
  repeat' split
  all_goals rfl

theorem note_fst_sessions (db : DB) (i : Nat) (t : String) :
    (note db i t).1.sessions = db.sessions := by
  unfold note
  repeat' split
  all_goals rfl

theorem currentSession_congr {db1 db2 : DB}
    (h : db1.sessions = db2.sessions) :
    currentSession db1 = currentSession db2 := by
  unfold currentSession
  rw [h]

theorem sessionExsOf_congr {db1 db2 : DB} (sid : Nat)
    (h : db1.sessionExs = db2.sessionExs) :
    sessionExsOf db1 sid = sessionExsOf db2 sid := by
  unfold sessionExsOf
  rw [h]

theorem setsOf_congr {db1 db2 : DB} (seId : Nat) (h : db1.sets = db2.sets) :
    setsOf db1 seId = setsOf db2 seId := by
  unfold setsOf
  rw [h]

theorem bestPR_congr {db1 db2 : DB} (e : Nat)
    (h : db1.personalRecords = db2.personalRecords) :
    bestPR db1 e = bestPR db2 e := by
  unfold bestPR
  rw [h]

theorem bestBWReps_congr {db1 db2 : DB} (e : Nat)
    (h : db1.personalRecords = db2.personalRecords) :
    bestBWReps db1 e = bestBWReps db2 e := by
  unfold bestBWReps
  rw [h]

theorem editIsPr_congr {db1 db2 : DB} (e : Nat) (isBw : Bool)
    (pw : Option ℚ) (reps : ℤ)
    (h : db1.personalRecords = db2.personalRecords) :
    editIsPr db1 e isBw pw reps = editIsPr db2 e isBw pw reps := by
  unfold editIsPr
  rw [bestPR_congr e h, bestBWReps_congr e h]

theorem activeCount_congr {db1 db2 : DB} (h : db1.sessions = db2.sessions) :
    activeCount db1 = activeCount db2 := by
  unfold activeCount
  rw [h]

theorem countP_map_le (f : α → α) (p : α → Bool)
    (h : ∀ x, p (f x) = true → p x = true) (l : List α) :
    (l.map f).countP p ≤ l.countP p := by
  induction l with
  | nil => simp
  | cons a l ih =>
    simp only [List.map_cons, List.countP_cons]
    by_cases hfa : p (f a) = true
    · rw [if_pos hfa, if_pos (h a hfa)]
      omega
    · rw [if_neg hfa]
      split <;> omega

theorem countP_filter_le (p q : α → Bool) (l : List α) :
    (l.filter q).countP p ≤ l.countP p :=
  (List.filter_sublist l).countP_le p

theorem foldl_insertSessionEx_sessions (pes : List ProgExRow) (sid : Nat) :
    ∀ db : DB,
      (pes.foldl (fun d pe => insertSessionEx d sid pe.exerciseId) db).sessions
        = db.sessions := by
  induction pes with
  | nil => intro db; rfl
  | cons pe pes ih => intro db; rw [List.foldl_cons, ih]; rfl

theorem foldl_recordPr_sessions (us : List (Nat × ℚ × ℤ × ℚ)) (now : Nat) :
    ∀ db : DB,
      ((us.foldl (fun d u => recordPr d u.1 u.2.1 u.2.2.1 u.2.2.2 now)
        db).sessions) = db.sessions := by
  induction us with
  | nil => intro db; rfl
  | cons u us ih => intro db; rw [List.foldl_cons, ih]; rfl

theorem countP_active_zero (db : DB) (hc : currentSession db = none) :
    db.sessions.countP (fun s => s.endTime.isNone) = 0 := by
  unfold currentSession at hc
  rw [List.countP_eq_zero]
  intro a ha
  simpa using List.find?_eq_none.mp hc a ha

theorem start_active_of_none (db : DB) (p b : Ref) (now : Nat)
    (hc : currentSession db = none) :
    activeCount (start db p b now).1 ≤ 1 := by
  have h0 := countP_active_zero db hc
  unfold start
  cases hp : resolveProgram db p with
  | none => unfold activeCount; dsimp only; omega
  | some pid =>
    cases hb : resolveBlock db pid b with
    | none => unfold activeCount; simp only [hb]; omega
    | some bid =>
      unfold activeCount
      simp only [hb, hc]
      rw [foldl_insertSessionEx_sessions]
      simp only [List.countP_append, h0, List.countP_cons]
      simp

theorem endSession_active_le (db : DB) (now : Nat)
    (h : activeCount db ≤ 1) : activeCount (endSession db now).1 ≤ 1 := by
  unfold endSession
  cases hf : db.sessions.find? (fun s =>
      s.endTime.isNone ∧ db.blocks.any (fun b => b.id = s.programBlockId)) with
  | none => simp only [hf]; exact h
  | some sess =>
    simp only [hf]
    unfold activeCount
    dsimp only
    rw [foldl_recordPr_sessions]
    refine Nat.le_trans (countP_map_le _ _ ?_ _) h
    intro x hx
    by_cases hid : x.id = sess.id
    · simp [hid] at hx
    · simpa [hid] using hx

theorem cancel_active_le (db : DB) (h : activeCount db ≤ 1) :
    activeCount (cancel db).1 ≤ 1 := by
  unfold cancel
  cases hc : currentSession db with
  | none => simp only [hc]; exact h
  | some sess =>
    simp only [hc]
    unfold activeCount
    dsimp only
    exact Nat.le_trans (countP_filter_le _ _ _) h

theorem start_fst_of_active (db : DB) (p b : Ref) (now : Nat)
    (hc : ∃ s, currentSession db = some s) : (start db p b now).1 = db := by
  obtain ⟨s, hs⟩ := hc
  unfold start
  cases hp : resolveProgram db p with
  | none => rfl
  | some pid =>
    cases hb : resolveBlock db pid b with
    | none => simp only [hb]
    | some bid => simp only [hb, hs]

theorem start_snd_of_active (db : DB) (p b : Ref) (now : Nat)
    (pid bid : Nat) (s : SessionRow) (hp : resolveProgram db p = some pid)
    (hb : resolveBlock db pid b = some bid)
    (hs : currentSession db = some s) :
    (start db p b now).2 = StartOutcome.alreadyActive s.id := by
  unfold start
  simp only [hp, hb, hs]

theorem currentSession_isSome_of_active (db : DB)
    (h : 1 ≤ activeCount db) : ∃ s, currentSession db = some s := by
  unfold activeCount at h
  have h2 : 0 < db.sessions.countP (fun s => s.endTime.isNone) := by omega
  obtain ⟨a, ha, hpa⟩ := List.countP_pos.mp h2
  unfold currentSession
  exact Option.isSome_iff_exists.mp (List.find?_isSome.mpr ⟨a, ha, hpa⟩)

/-- Claim C4: at every state with at most one active session, every session
subcommand leaves at most one active session — Start refuses to mutate when
a session is already active (returning the Conflict outcome when program and
block resolve), End stamps the active session's end timestamp, Cancel
deletes it — so the number of Training Sessions with a null end timestamp
stays 0 or 1 and no operation produces two simultaneously active sessions.
The `current_session` view read by Start is modelled from the spec (the
migrations are outside `src/`) as the first session row with a null end
timestamp. -/
theorem C4_at_most_one_active_session (db : DB) (c : Cmd) (now : Nat)
    (h : activeCount db ≤ 1) :
    activeCount (step db c now) ≤ 1 ∧
    (∀ p b, 1 ≤ activeCount db → (start db p b now).1 = db ∧
      ∀ pid bid, resolveProgram db p = some pid →
        resolveBlock db pid b = some bid →
        ∃ s, currentSession db = some s ∧
          (start db p b now).2 = StartOutcome.alreadyActive s.id) := by
  constructor
  · cases c with
    | startCmd p b =>
      show activeCount (start db p b now).1 ≤ 1
      cases hcs : currentSession db with
      | none => exact start_active_of_none db p b now hcs
      | some s =>
        rw [start_fst_of_active db p b now ⟨s, hcs⟩]
        exact h
    | cancelCmd => exact cancel_active_le db h
    | editCmd a =>
      show activeCount (edit db a now).1 ≤ 1
      rw [activeCount_congr (edit_fst_sessions db a now)]
      exact h
    | endCmd => exact endSession_active_le db now h
    | swapCmd i r =>
      show activeCount (swap db i r now).1 ≤ 1
      rw [activeCount_congr (swap_fst_sessions db i r now)]
      exact h
    | addExCmd r sc =>
      show activeCount (addEx db r sc now).1 ≤ 1
      rw [activeCount_congr (addEx_fst_sessions db r sc now)]
      exact h
    | noteCmd i t =>
      show activeCount (note db i t).1 ≤ 1
      rw [activeCount_congr (note_fst_sessions db i t)]
      exact h
  · intro p b ha
    obtain ⟨s, hs⟩ := currentSession_isSome_of_active db ha
    refine ⟨start_fst_of_active db p b now ⟨s, hs⟩, ?_⟩
    intro pid bid hp hb
    exact ⟨s, hs, start_snd_of_active db p b now pid bid s hp hb hs⟩

/-- Witness for C4 at a concrete state and command. -/
theorem C4_witness : activeCount (step dbBase Cmd.cancelCmd 5) ≤ 1 :=
  (C4_at_most_one_active_session dbBase Cmd.cancelCmd 5 (by decide)).1

theorem toI64_small (n : Nat) (h : n < 2 ^ 63) : toI64 n = (n : Int) := by
  unfold toI64 USIZE
  rw [Nat.mod_eq_of_lt (by omega)]
  rw [if_pos h]

theorem i64ToUsize_small (z : Int) (h0 : 0 ≤ z) (h : z < 2 ^ 64) :
    i64ToUsize z = z.toNat := by
  unfold i64ToUsize USIZE
  rw [Int.emod_eq_of_lt h0 (by exact_mod_cast h)]

theorem nthSet_nat (db : DB) (seId : Nat) (k : Nat) :
    nthSet db seId ((k : Int) + 1) = (setsOf db seId)[k]? := by
  unfold nthSet
  rw [if_pos (by omega)]
  norm_num

theorem edit_eq_of_resolved (db : DB) (a : EditArgs) (now : Nat)
    (sess : SessionRow) (se : SessionExRow) (isBw : Bool) (pw : Option ℚ)
    (hs : currentSession db = some sess)
    (hw : parseWeight a.weight = some (isBw, pw))
    (hse : nthByI64Offset (sessionExsOf db sess.id)
      (toI64 (usizeSub1 a.exercise)) = some se) :
    edit db a now =
      if a.new = false ∧
          i64ToUsize (totalSets db sess.programBlockId se.exerciseId se.id) ≤
            editSetIndex db a se.id then
        (db, EditOutcome.noSetAtIndex ((editSetIndex db a se.id + 1) % USIZE)
          (totalSets db sess.programBlockId se.exerciseId se.id))
      else
        (if editIsPr (editWrite db a se.id isBw pw now) se.exerciseId isBw pw
            a.reps then
          recordPr (editWrite db a se.id isBw pw now) se.exerciseId
            (if isBw then 0 else pw.getD 0) a.reps
            (if isBw then 0 else epley_1rm (pw.getD 0) a.reps) now
        else editWrite db a se.id isBw pw now,
        EditOutcome.logged (editSetIndex db a se.id)
          (editIsPr (editWrite db a se.id isBw pw now) se.exerciseId isBw pw
            a.reps)) := by
  unfold edit
  simp only [hs, hw, hse]

theorem length_filter_range_le (n m : Nat) :
    ((List.range n).filter (fun k => m ≤ k)).length = n - min n m := by
  induction n with
  | zero => simp
  | succ n ih =>
    rw [List.range_succ, List.filter_append, List.length_append, ih]
    by_cases h : m ≤ n
    · simp only [List.filter_cons, List.filter_nil, h]
      simp
      omega
    · simp only [List.filter_cons, List.filter_nil]
      rw [if_neg (by simpa using h)]
      simp
      omega

theorem totalSets_of_some (db : DB) (blockId exId seId : Nat) (p : ℤ)
    (hps : programSets db blockId exId = some p) (hp : 0 ≤ p) :
    totalSets db blockId exId seId =
      max p ((setsOf db seId).length : ℤ) := by
  unfold totalSets
  rw [hps]
  dsimp only
  have hcast : ∀ k : Nat, (decide (p ≤ (k : ℤ))) = decide (p.toNat ≤ k) := by
    intro k
    rcases Int.le_total p k with hk | hk <;>
      simp [Int.toNat_le, decide_eq_true_eq] <;> omega
  calc p + ((((List.range (setsOf db seId).length).filter
        (fun k : Nat => p ≤ (k : ℤ))).length : Nat) : ℤ)
      = p + ((((List.range (setsOf db seId).length).filter
        (fun k => p.toNat ≤ k)).length : Nat) : ℤ) := by
        rw [List.filter_congr (fun k _ => hcast k)]
    _ = max p ((setsOf db seId).length : ℤ) := by
        rw [length_filter_range_le]
        omega

theorem totalSets_of_none (db : DB) (blockId exId seId : Nat)
    (hps : programSets db blockId exId = none) :
    totalSets db blockId exId seId = 2 := by
  unfold totalSets
  rw [hps]

theorem editWrite_insert_at_end (db : DB) (a : EditArgs) (seId : Nat)
    (isBw : Bool) (pw : Option ℚ) (now : Nat) (hset : a.set = none)
    (hcount : (setsOf db seId).length + 1 < 2 ^ 63) :
    editWrite db a seId isBw pw now =
      insertSetRow db seId (if isBw then 0 else pw.getD 0) a.reps isBw now := by
  unfold editWrite editSetIndex
  rw [hset]
  dsimp only
  rw [Nat.mod_eq_of_lt (show (setsOf db seId).length + 1 < USIZE by
    unfold USIZE; omega)]
  rw [toI64_small _ hcount]
  rw [show ((((setsOf db seId).length + 1 : Nat)) : Int) =
    (((setsOf db seId).length : Nat) : Int) + 1 by push_cast; ring]
  rw [nthSet_nat]
  rw [List.getElem?_eq_none (Nat.le_refl _)]

/-- Claim C10: an Edit that supplies neither an explicit set index nor
`--new` targets slot (count of logged sets) + 1 and succeeds exactly while
that count is strictly below the prescribed set count (2 when the exercise
has no prescription row in the session's block): below the bound it inserts
one new set row at the end; at or above it, it fails with the "no set at
index" error and mutates nothing.  (The hypotheses bound the stored counts
by the `i64`/`i32` ranges the program itself guarantees.) -/
theorem C10_default_edit_bounded_by_prescription
    (db : DB) (a : EditArgs) (now : Nat) (sess : SessionRow)
    (se : SessionExRow) (isBw : Bool) (pw : Option ℚ)
    (hs : currentSession db = some sess)
    (hw : parseWeight a.weight = some (isBw, pw))
    (hse : nthByI64Offset (sessionExsOf db sess.id)
      (toI64 (usizeSub1 a.exercise)) = some se)
    (hset : a.set = none) (hnew : a.new = false)
    (hcount : (setsOf db se.id).length + 1 < 2 ^ 63)
    (hp : ∀ q ∈ programSets db sess.programBlockId se.exerciseId,
      0 ≤ q ∧ q < 2 ^ 63) :
    ((((setsOf db se.id).length : ℤ) <
        (programSets db sess.programBlockId se.exerciseId).getD 2 →
      (edit db a now).1.sets = db.sets ++
          [⟨db.nextId, se.id, if isBw then 0 else pw.getD 0, a.reps, isBw,
            now⟩] ∧
        ∃ flag, (edit db a now).2 =
          EditOutcome.logged (setsOf db se.id).length flag) ∧
    ((programSets db sess.programBlockId se.exerciseId).getD 2 ≤
        ((setsOf db se.id).length : ℤ) →
      edit db a now = (db, EditOutcome.noSetAtIndex
        ((setsOf db se.id).length + 1)
        (totalSets db sess.programBlockId se.exerciseId se.id)))) := by
  have hrun := edit_eq_of_resolved db a now sess se isBw pw hs hw hse
  have hidx : editSetIndex db a se.id = (setsOf db se.id).length := by
    unfold editSetIndex
    rw [hset]
  have hcond : i64ToUsize (totalSets db sess.programBlockId se.exerciseId
        se.id) ≤ (setsOf db se.id).length ↔
      (programSets db sess.programBlockId se.exerciseId).getD 2 ≤
        ((setsOf db se.id).length : ℤ) := by
    cases hps : programSets db sess.programBlockId se.exerciseId with
    | none =>
      rw [totalSets_of_none db _ _ _ hps]
      rw [i64ToUsize_small 2 (by omega) (by omega)]
      simp only [hps, Option.getD_none]
      omega
    | some p =>
      obtain ⟨hp0, hplt⟩ := hp p (by rw [hps]; rfl)
      rw [totalSets_of_some db _ _ se.id p hps hp0]
      rw [i64ToUsize_small _ (by omega) (by omega)]
      simp only [hps, Option.getD_some]
      omega
  constructor
  · intro hlt
    have hcf : ¬ (a.new = false ∧
        i64ToUsize (totalSets db sess.programBlockId se.exerciseId se.id) ≤
          editSetIndex db a se.id) := by
      rw [hidx]
      intro hco
      exact absurd (hcond.mp hco.2) (by omega)
    rw [hrun, if_neg hcf]
    rw [editWrite_insert_at_end db a se.id isBw pw now hset hcount] at hrun ⊢
    constructor
    · by_cases hpr : editIsPr (insertSetRow db se.id
          (if isBw then 0 else pw.getD 0) a.reps isBw now) se.exerciseId isBw
          pw a.reps = true
      · rw [if_pos hpr]
        rfl
      · rw [if_neg hpr]
        rfl
    · exact ⟨_, by rw [hidx]⟩
  · intro hge
    have hct : a.new = false ∧
        i64ToUsize (totalSets db sess.programBlockId se.exerciseId se.id) ≤
          editSetIndex db a se.id := by
      rw [hidx]
      exact ⟨hnew, hcond.mpr hge⟩
    rw [hrun, if_pos hct, hidx]
    rw [Nat.mod_eq_of_lt (show (setsOf db se.id).length + 1 < USIZE by
      unfold USIZE; omega)]

/-- Witness for C10: in a session with no prescription row (default 2) and
no logged sets, a default Edit inserts set 1. -/
theorem C10_witness :
    (edit dbBase ⟨1, WeightArg.kg 100, 5, none, false⟩ 7).1.sets =
      dbBase.sets ++ [⟨1000, 200, 100, 5, false, 7⟩] ∧
    ∃ flag, (edit dbBase ⟨1, WeightArg.kg 100, 5, none, false⟩ 7).2 =
      EditOutcome.logged 0 flag := by
  have h := (C10_default_edit_bounded_by_prescription dbBase
    ⟨1, WeightArg.kg 100, 5, none, false⟩ 7 ⟨100, 10, 0, none⟩
    ⟨200, 100, 1, none⟩ false (some 100) rfl rfl rfl rfl rfl (by decide)
    (by simp [programSets, dbBase])).1 (by decide)
  exact h

theorem usizeSub1_of_pos (s : Nat) (h1 : 1 ≤ s) (h2 : s < USIZE) :
    usizeSub1 s = s - 1 := by
  unfold usizeSub1 USIZE
  unfold USIZE at h2
  omega

/-- Claim C5 (amended): an explicit 1-based set index may exceed the count
of logged sets, but without `--new` it is still checked against
`total_sets` (prescribed count — default 2 — plus already-logged extra
sets): an index strictly beyond that bound fails with the "no set at
index" error and persists nothing, and an index within it is accepted.
"Extra sets" beyond the running total therefore require `--new` (or
filling slots one at a time). -/
theorem C5_explicit_set_index_bounded
    (db : DB) (a : EditArgs) (now : Nat) (sess : SessionRow)
    (se : SessionExRow) (isBw : Bool) (pw : Option ℚ) (s : Nat)
    (hs : currentSession db = some sess)
    (hw : parseWeight a.weight = some (isBw, pw))
    (hse : nthByI64Offset (sessionExsOf db sess.id)
      (toI64 (usizeSub1 a.exercise)) = some se)
    (hset : a.set = some s) (hnew : a.new = false)
    (h1 : 1 ≤ s) (h2 : s < USIZE) :
    (i64ToUsize (totalSets db sess.programBlockId se.exerciseId se.id) < s →
      edit db a now = (db, EditOutcome.noSetAtIndex s
        (totalSets db sess.programBlockId se.exerciseId se.id))) ∧
    (s ≤ i64ToUsize (totalSets db sess.programBlockId se.exerciseId se.id) →
      ∃ flag, (edit db a now).2 = EditOutcome.logged (s - 1) flag) := by
  have hrun := edit_eq_of_resolved db a now sess se isBw pw hs hw hse
  have hidx : editSetIndex db a se.id = s - 1 := by
    unfold editSetIndex
    rw [hset]
    exact usizeSub1_of_pos s h1 h2
  constructor
  · intro hover
    have hct : a.new = false ∧
        i64ToUsize (totalSets db sess.programBlockId se.exerciseId se.id) ≤
          editSetIndex db a se.id := by
      rw [hidx]
      exact ⟨hnew, by omega⟩
    rw [hrun, if_pos hct, hidx]
    have : (s - 1 + 1) % USIZE = s := by
      unfold USIZE
      unfold USIZE at h2
      omega
    rw [this]
  · intro hin
    have hcf : ¬ (a.new = false ∧
        i64ToUsize (totalSets db sess.programBlockId se.exerciseId se.id) ≤
          editSetIndex db a se.id) := by
      rw [hidx]
      rintro ⟨-, hco⟩
      omega
    rw [hrun, if_neg hcf, hidx]
    exact ⟨_, rfl⟩

/-- Witness for C5: with 3 prescribed sets and none logged, explicit set
index 1 is accepted. -/
theorem C5_witness :
    ∃ flag, (edit dbPresc3 ⟨1, WeightArg.kg 100, 5, some 1, false⟩ 7).2 =
      EditOutcome.logged 0 flag :=
  (C5_explicit_set_index_bounded dbPresc3
    ⟨1, WeightArg.kg 100, 5, some 1, false⟩ 7 ⟨100, 10, 0, none⟩
    ⟨200, 100, 1, none⟩ false (some 100) 1 rfl rfl rfl rfl rfl
    (by decide) (by decide)).2 (by decide)

/-- Claim C1 (amended): for a successful weighted Edit, the new-record flag
is exactly the strict weight × reps product comparison against the stored
record with the highest estimated 1RM (over all records of the exercise,
bodyweight ones included), true when no record exists; the Epley estimated
1RM is computed only to be stored on the new record, never as the decision
metric. -/
theorem C1_edit_weighted_pr_by_product
    (db : DB) (a : EditArgs) (now : Nat) (sess : SessionRow)
    (se : SessionExRow) (w : ℚ)
    (hs : currentSession db = some sess)
    (hw : parseWeight a.weight = some (false, some w))
    (hse : nthByI64Offset (sessionExsOf db sess.id)
      (toI64 (usizeSub1 a.exercise)) = some se)
    (hok : ¬ (a.new = false ∧
      i64ToUsize (totalSets db sess.programBlockId se.exerciseId se.id) ≤
        editSetIndex db a se.id)) :
    (edit db a now).2 = EditOutcome.logged (editSetIndex db a se.id)
      (match bestPR db se.exerciseId with
        | some pr => decide (pr.weight * (pr.reps : ℚ) < w * (a.reps : ℚ))
        | none => true) := by
  have hrun := edit_eq_of_resolved db a now sess se false (some w) hs hw hse
  rw [hrun, if_neg hok]
  dsimp only
  rw [editIsPr_congr se.exerciseId false (some w) a.reps
    (editWrite_personalRecords db a se.id false (some w) now)]
  unfold editIsPr
  cases bestPR db se.exerciseId <;> simp

/-- Witness for C1 at the concrete record 80 kg × 15 and candidate
50 kg × 30. -/
theorem C1_witness :
    (edit dbPr120 ⟨1, WeightArg.kg 50, 30, none, false⟩ 7).2 =
      EditOutcome.logged 0 true := by
  rw [C1_edit_weighted_pr_by_product dbPr120
    ⟨1, WeightArg.kg 50, 30, none, false⟩ 7 ⟨100, 10, 0, none⟩
    ⟨200, 100, 1, none⟩ 50 rfl rfl rfl (by decide)]
  norm_num [bestPR, dbPr120, dbBase, sortOn, insertOn, editSetIndex, setsOf]

theorem editWrite_exercises (db : DB) (a : EditArgs) (seId : Nat)
    (isBw : Bool) (pw : Option ℚ) (now : Nat) :
    (editWrite db a seId isBw pw now).exercises = db.exercises := by
  unfold editWrite
  repeat' split
  all_goals rfl

theorem recordPr_cache (db : DB) (exId : Nat) (w : ℚ) (r : ℤ) (est : ℚ)
    (now : Nat) :
    ∀ e ∈ (recordPr db exId w r est now).exercises, e.id = exId →
      e.estimatedOneRm = some est ∧ e.currentPrDate = some now := by
  intro e he hid
  unfold recordPr at he
  dsimp only at he
  obtain ⟨x, hx, hfe⟩ := List.mem_map.mp he
  by_cases hxid : x.id = exId
  · rw [if_pos hxid] at hfe
    rw [← hfe]
    exact ⟨rfl, rfl⟩
  · rw [if_neg hxid] at hfe
    rw [← hfe] at hid
    exact absurd hid hxid

theorem distinctKeys_aux_nodup (l : List Nat) :
    ∀ acc : List Nat, acc.Nodup →
      (l.foldl (fun acc k => if k ∈ acc then acc else acc ++ [k])
        acc).Nodup := by
  induction l with
  | nil => intro acc h; exact h
  | cons k ks ih =>
    intro acc h
    rw [List.foldl_cons]
    by_cases hk : k ∈ acc
    · rw [if_pos hk]
      exact ih acc h
    · rw [if_neg hk]
      refine ih _ ?_
      simp [List.nodup_append, h, hk]

theorem distinctKeys_nodup (l : List Nat) : (distinctKeys l).Nodup :=
  distinctKeys_aux_nodup l [] List.nodup_nil

theorem mem_filterMap_fst {β : Type} (f : Nat → Option (Nat × β))
    (hf : ∀ k x, f k = some x → x.1 = k) (l : List Nat) :
    ∀ x ∈ l.filterMap f, x.1 ∈ l := by
  intro x hx
  obtain ⟨k, hk, hfk⟩ := List.mem_filterMap.mp hx
  rw [hf k x hfk]
  exact hk

theorem map_fst_filterMap_nodup {β : Type} (f : Nat → Option (Nat × β))
    (hf : ∀ k x, f k = some x → x.1 = k) (l : List Nat) (h : l.Nodup) :
    ((l.filterMap f).map (fun x => x.1)).Nodup := by
  induction l with
  | nil => simp
  | cons k ks ih =>
    obtain ⟨hknot, hks⟩ := List.nodup_cons.mp h
    cases hfk : f k with
    | none => simpa [List.filterMap_cons, hfk] using ih hks
    | some x =>
      simp only [List.filterMap_cons, hfk, List.map_cons, List.nodup_cons]
      refine ⟨?_, ih hks⟩
      intro hmem
      obtain ⟨y, hy, hyx⟩ := List.mem_map.mp hmem
      have h1 : y.1 ∈ ks := mem_filterMap_fst f hf ks y hy
      rw [hyx, hf k x hfk] at h1
      exact hknot h1

theorem foldl_recordPr_personalRecords (us : List (Nat × ℚ × ℤ × ℚ))
    (now : Nat) : ∀ db : DB,
    (us.foldl (fun d u => recordPr d u.1 u.2.1 u.2.2.1 u.2.2.2 now)
      db).personalRecords = db.personalRecords ++
        us.map (fun u => ⟨u.1, u.2.1, u.2.2.1, u.2.2.2, now, false⟩) := by
  induction us with
  | nil => intro db; simp
  | cons u us ih =>
    intro db
    rw [List.foldl_cons, ih]
    rw [recordPr_personalRecords]
    simp

theorem foldl_recordPr_frozen (us : List (Nat × ℚ × ℤ × ℚ)) (now i : Nat) :
    ∀ db : DB, (∀ w ∈ us, w.1 ≠ i) →
    ∀ e ∈ (us.foldl (fun d u => recordPr d u.1 u.2.1 u.2.2.1 u.2.2.2 now)
      db).exercises, e.id = i → e ∈ db.exercises := by
  induction us with
  | nil => intro db _ e he _; exact he
  | cons v vs ih =>
    intro db hk e he hid
    rw [List.foldl_cons] at he
    have he2 := ih _ (fun w hw => hk w (List.mem_cons_of_mem v hw)) e he hid
    unfold recordPr at he2
    dsimp only at he2
    obtain ⟨x, hx, hfx⟩ := List.mem_map.mp he2
    by_cases hxv : x.id = v.1
    · rw [if_pos hxv] at hfx
      rw [← hfx] at hid
      dsimp only at hid
      exact absurd (by rw [← hxv]; exact hid) (hk v (List.mem_cons_self v vs))
    · rw [if_neg hxv] at hfx
      rw [← hfx]
      exact hx

theorem foldl_recordPr_cache (us : List (Nat × ℚ × ℤ × ℚ)) (now : Nat) :
    ∀ db : DB, ∀ u ∈ us, (us.map (fun x => x.1)).Nodup →
    ∀ e ∈ (us.foldl (fun d v => recordPr d v.1 v.2.1 v.2.2.1 v.2.2.2 now)
      db).exercises, e.id = u.1 →
      e.estimatedOneRm = some u.2.2.2 ∧ e.currentPrDate = some now := by
  induction us with
  | nil =>
    intro db u hu
    exact absurd hu (List.not_mem_nil u)
  | cons v vs ih =>
    intro db u hu hnd e he hid
    rw [List.foldl_cons] at he
    rw [List.map_cons] at hnd
    obtain ⟨hvnot, hnd2⟩ := List.nodup_cons.mp hnd
    rcases List.mem_cons.mp hu with rfl | hu2
    · have hkeys : ∀ w ∈ vs, w.1 ≠ u.1 := by
        intro w hw heq
        exact hvnot (heq ▸ List.mem_map_of_mem (fun x => x.1) hw)
      have he2 := foldl_recordPr_frozen vs now u.1 _ hkeys e he hid
      exact recordPr_cache db u.1 u.2.1 u.2.2.1 u.2.2.2 now e he2 hid
    · exact ih _ u hu2 hnd2 e he hid

theorem endSession_fst_personalRecords (db : DB) (now : Nat)
    (sess : SessionRow)
    (hfind : db.sessions.find? (fun s => s.endTime.isNone ∧
      db.blocks.any (fun b => b.id = s.programBlockId)) = some sess) :
    (endSession db now).1.personalRecords = db.personalRecords ++
      (endPrUpdates db sess.id).map (fun u =>
        ⟨u.1, u.2.1, u.2.2.1, u.2.2.2, now, false⟩) := by
  unfold endSession
  simp only [hfind]
  exact foldl_recordPr_personalRecords _ now db

theorem endSession_fst_exercises (db : DB) (now : Nat) (sess : SessionRow)
    (hfind : db.sessions.find? (fun s => s.endTime.isNone ∧
      db.blocks.any (fun b => b.id = s.programBlockId)) = some sess) :
    (endSession db now).1.exercises =
      ((endPrUpdates db sess.id).foldl
        (fun d v => recordPr d v.1 v.2.1 v.2.2.1 v.2.2.2 now)
        db).exercises := by
  unfold endSession
  simp only [hfind]

/-- Claim C8 (amended): after every PR-affecting mutation — the set-level
record written by Edit as well as each per-exercise session-level record
written by End — the exercise's cached best fields equal those of the
record row that very mutation just inserted: at Edit the candidate's Epley
estimate (0 for a bodyweight record) dated now, at End the session-best
candidate's value dated now.  They equal the authoritative
highest-estimated-1RM record only when the new record's value happens to be
at least every stored one, which neither the weighted product comparison
nor the bodyweight reps comparison guarantees. -/
theorem C8_cache_mirrors_new_record :
    (∀ (db : DB) (a : EditArgs) (now : Nat) (sess : SessionRow)
      (se : SessionExRow) (isBw : Bool) (pw : Option ℚ),
      currentSession db = some sess →
      parseWeight a.weight = some (isBw, pw) →
      nthByI64Offset (sessionExsOf db sess.id)
        (toI64 (usizeSub1 a.exercise)) = some se →
      ¬ (a.new = false ∧
        i64ToUsize (totalSets db sess.programBlockId se.exerciseId se.id) ≤
          editSetIndex db a se.id) →
      editIsPr (editWrite db a se.id isBw pw now) se.exerciseId isBw pw
        a.reps = true →
      (edit db a now).1.personalRecords = db.personalRecords ++
        [⟨se.exerciseId, if isBw then 0 else pw.getD 0, a.reps,
          if isBw then 0 else epley_1rm (pw.getD 0) a.reps, now, false⟩] ∧
      ∀ e ∈ (edit db a now).1.exercises, e.id = se.exerciseId →
        e.estimatedOneRm =
            some (if isBw then 0 else epley_1rm (pw.getD 0) a.reps) ∧
          e.currentPrDate = some now) ∧
    (∀ (db : DB) (now : Nat) (sess : SessionRow),
      db.sessions.find? (fun s => s.endTime.isNone ∧
        db.blocks.any (fun b => b.id = s.programBlockId)) = some sess →
      (endSession db now).1.personalRecords = db.personalRecords ++
        (endPrUpdates db sess.id).map (fun u =>
          ⟨u.1, u.2.1, u.2.2.1, u.2.2.2, now, false⟩) ∧
      ∀ u ∈ endPrUpdates db sess.id,
        ∀ e ∈ (endSession db now).1.exercises, e.id = u.1 →
          e.estimatedOneRm = some u.2.2.2 ∧ e.currentPrDate = some now) := by
  constructor
  · intro db a now sess se isBw pw hs hw hse hok hpr
    have hrun := edit_eq_of_resolved db a now sess se isBw pw hs hw hse
    rw [hrun, if_neg hok]
    dsimp only
    rw [if_pos hpr]
    constructor
    · rw [recordPr_personalRecords,
        editWrite_personalRecords db a se.id isBw pw now]
    · exact recordPr_cache _ se.exerciseId _ a.reps _ now
  · intro db now sess hfind
    have hnodup : ((endPrUpdates db sess.id).map (fun x => x.1)).Nodup := by
      unfold endPrUpdates
      apply map_fst_filterMap_nodup
      · intro k x hx
        dsimp only at hx
        split at hx
        · injection hx with h2
          rw [← h2]
        · exact absurd hx (by simp)
      · exact distinctKeys_nodup _
    refine ⟨endSession_fst_personalRecords db now sess hfind, ?_⟩
    intro u hu e he hid
    rw [endSession_fst_exercises db now sess hfind] at he
    exact foldl_recordPr_cache (endPrUpdates db sess.id) now db u hu hnodup
      e he hid

/-- Witness for C8, both operations: a bodyweight Edit with no stored
bodyweight record caches estimate 0 dated now; an End over `dbEndSet`
appends its update rows and points every updated exercise's cache at its
own update. -/
theorem C8_witness :
    ((edit dbBase ⟨1, WeightArg.bw, 5, none, false⟩ 7).1.personalRecords =
        dbBase.personalRecords ++ [⟨1, 0, 5, 0, 7, false⟩] ∧
      ∀ e ∈ (edit dbBase ⟨1, WeightArg.bw, 5, none, false⟩ 7).1.exercises,
        e.id = 1 → e.estimatedOneRm = some 0 ∧ e.currentPrDate = some 7) ∧
    ((endSession dbEndSet 9).1.personalRecords =
        dbEndSet.personalRecords ++ (endPrUpdates dbEndSet 100).map
          (fun u => ⟨u.1, u.2.1, u.2.2.1, u.2.2.2, 9, false⟩) ∧
      ∀ u ∈ endPrUpdates dbEndSet 100,
        ∀ e ∈ (endSession dbEndSet 9).1.exercises, e.id = u.1 →
          e.estimatedOneRm = some u.2.2.2 ∧ e.currentPrDate = some 9) := by
  constructor
  · have h := C8_cache_mirrors_new_record.1 dbBase
      ⟨1, WeightArg.bw, 5, none, false⟩ 7 ⟨100, 10, 0, none⟩
      ⟨200, 100, 1, none⟩ true none rfl rfl rfl (by decide) rfl
    simpa using h
  · exact C8_cache_mirrors_new_record.2 dbEndSet 9 ⟨100, 10, 0, none⟩ rfl

/-- Claim C2 (amended): a record is written at End only on strict
improvement (strictly more reps on the bodyweight arm, strictly higher
estimated 1RM on the weighted arm, and never when no record exists at all);
the weighted Edit check is strict too, but in the weight × reps product —
so a candidate whose estimated 1RM merely ties the best can be recorded
when its product is larger — and the bodyweight Edit check is `reps >=`,
so a candidate with exactly the best stored bodyweight rep count IS
recorded as a new personal record. -/
theorem C2_strictness_profile :
    (∀ (db : DB) (exId : Nat) (w : ℚ) (r : ℤ) (m : ℚ),
      endIsPr db exId w r m = true →
      ∃ pr, bestPR db exId = some pr ∧
        ((w = 0 ∧ pr.weight = 0 ∧ pr.reps < r) ∨
          (¬ w = 0 ∧ pr.estimated1rm < m))) ∧
    (∀ (db : DB) (exId : Nat) (pr : PRRow) (pw : Option ℚ) (r : ℤ),
      bestPR db exId = some pr → editIsPr db exId false pw r = true →
      pr.weight * (pr.reps : ℚ) < pw.getD 0 * (r : ℚ)) ∧
    (∀ (db : DB) (exId : Nat) (m : ℤ),
      bestBWReps db exId = some m → editIsPr db exId true none m = true) := by
  refine ⟨?_, ?_, ?_⟩
  · intro db exId w r m h
    unfold endIsPr at h
    cases hb : bestPR db exId with
    | none => rw [hb] at h; exact absurd h (by simp)
    | some pr =>
      simp only [hb] at h
      refine ⟨pr, rfl, ?_⟩
      by_cases hw : w = 0
      · rw [if_pos hw] at h
        by_cases hpw : pr.weight = 0
        · rw [if_pos hpw] at h
          exact Or.inl ⟨hw, hpw, by simpa using h⟩
        · rw [if_neg hpw] at h
          exact absurd h (by simp)
      · rw [if_neg hw] at h
        exact Or.inr ⟨hw, by simpa using h⟩
  · intro db exId pr pw r hb h
    unfold editIsPr at h
    rw [hb] at h
    simpa using h
  · intro db exId m hb
    unfold editIsPr
    rw [hb]
    simp

/-- Witness for C2: with a stored bodyweight best of 10 reps, a candidate
of exactly 10 reps is flagged as a new record. -/
theorem C2_witness : editIsPr dbBw10 1 true none 10 = true :=
  C2_strictness_profile.2.2 dbBw10 1 10 rfl

theorem filter_sessionExs_map (l : List SessionExRow)
    (sid oldId newExId : Nat) :
    (l.map (fun t =>
        if t.id = oldId then { t with exerciseId := newExId } else t)).filter
      (fun t => t.sessionId = sid) =
    (l.filter (fun t => t.sessionId = sid)).map (fun t =>
      if t.id = oldId then { t with exerciseId := newExId } else t) := by
  rw [List.filter_map]
  congr 1
  apply List.filter_congr
  intro t _
  by_cases h : t.id = oldId <;> simp [h]

/-- Claim C7: a Swap in an active session substitutes the exercise
reference of the targeted Session-Exercise in place: the
`training_session_exercises` table is the identity map except that rows
with the target's primary key get the new `exercise_id` (same row id, same
session, same note), the session's insertion-order display list is the
same list with only that substitution (positions preserved), and the
`exercise_sets` and `training_sessions` tables are untouched — so all
already-logged sets remain attached to the same Session-Exercise row and
every other Session-Exercise is unchanged. -/
theorem C7_swap_substitutes_in_place
    (db : DB) (i : Nat) (r : Ref) (now : Nat) (sess : SessionRow)
    (oldSe : SessionExRow) (newExId : Nat)
    (hs : currentSession db = some sess)
    (hse : nthByI64Offset (sessionExsOf db sess.id)
      (toI64 (usizeSub1 i)) = some oldSe)
    (hr : resolveExercise db r = some newExId) :
    (swap db i r now).1.sessionExs = db.sessionExs.map (fun t =>
      if t.id = oldSe.id then { t with exerciseId := newExId } else t) ∧
    (swap db i r now).1.sets = db.sets ∧
    (swap db i r now).1.sessions = db.sessions ∧
    sessionExsOf (swap db i r now).1 sess.id =
      (sessionExsOf db sess.id).map (fun t =>
        if t.id = oldSe.id then { t with exerciseId := newExId } else t) ∧
    (swap db i r now).2 = SwapOutcome.swapped oldSe.id newExId := by
  have hcomp : (swap db i r now).1.sessionExs = db.sessionExs.map (fun t =>
      if t.id = oldSe.id then { t with exerciseId := newExId } else t) ∧
      (swap db i r now).1.sets = db.sets ∧
      (swap db i r now).1.sessions = db.sessions ∧
      (swap db i r now).2 = SwapOutcome.swapped oldSe.id newExId := by
    unfold swap
    simp only [hs, hse, hr]
    cases hpe : db.progExercises.find? (fun pe =>
        pe.programBlockId = sess.programBlockId ∧
          pe.exerciseId = newExId) with
    | some pe =>
      simp only [hpe]
      exact ⟨trivial, trivial, trivial, trivial⟩
    | none =>
      simp only [hpe]
      exact ⟨trivial, trivial, trivial, trivial⟩
  refine ⟨hcomp.1, hcomp.2.1, hcomp.2.2.1, ?_, hcomp.2.2.2⟩
  unfold sessionExsOf
  rw [hcomp.1, filter_sessionExs_map]

/-- Witness for C7 at the spec's Swap scenario: two logged sets survive the
swap and the session-exercise keeps its row id and position. -/
theorem C7_witness :
    (swap dbSwap 1 (Ref.byName "Incline Press") 5).1.sets = dbSwap.sets ∧
    sessionExsOf (swap dbSwap 1 (Ref.byName "Incline Press") 5).1 100 =
      [⟨200, 100, 2, none⟩] := by
  have h := C7_swap_substitutes_in_place dbSwap 1
    (Ref.byName "Incline Press") 5 ⟨100, 10, 0, none⟩ ⟨200, 100, 1, none⟩ 2
    rfl rfl rfl
  refine ⟨h.2.1, ?_⟩
  rw [h.2.2.2.1]
  rfl

theorem mem_insertOn {α : Type} (le : α → α → Bool) (a : α) (m : List α)
    (x : α) : x ∈ insertOn le a m ↔ x = a ∨ x ∈ m := by
  induction m with
  | nil => simp [insertOn]
  | cons y ys ih =>
    unfold insertOn
    by_cases h : le a y = true
    · simp [h]
    · simp [h, ih]
      tauto

theorem mem_sortOn {α : Type} (le : α → α → Bool) (l : List α) (x : α) :
    x ∈ sortOn le l ↔ x ∈ l := by
  induction l with
  | nil => simp [sortOn]
  | cons a as ih => simp [sortOn, mem_insertOn, ih]

theorem insertOn_append_last {α : Type} (le : α → α → Bool) (a x : α)
    (m : List α) (h : le a x = true) :
    insertOn le a (m ++ [x]) = insertOn le a m ++ [x] := by
  induction m with
  | nil => simp [insertOn, h]
  | cons y ys ih =>
    simp only [List.cons_append]
    unfold insertOn
    by_cases hy : le a y = true
    · simp [hy]
    · simp [hy, ih]

theorem sortOn_append_last {α : Type} (le : α → α → Bool) (l : List α)
    (x : α) (h : ∀ a ∈ l, le a x = true) :
    sortOn le (l ++ [x]) = sortOn le l ++ [x] := by
  induction l with
  | nil => simp [sortOn, insertOn]
  | cons a as ih =>
    simp only [List.cons_append, sortOn, List.append_eq]
    rw [ih (fun b hb => h b (List.mem_cons_of_mem a hb))]
    exact insertOn_append_last le a x _ (h a (List.mem_cons_self a as))

theorem insertOn_map {α : Type} (f : α → α) (le : α → α → Bool)
    (hk : ∀ u v, le (f u) (f v) = le u v) (a : α) (m : List α) :
    insertOn le (f a) (m.map f) = (insertOn le a m).map f := by
  induction m with
  | nil => simp [insertOn]
  | cons y ys ih =>
    simp only [List.map_cons]
    unfold insertOn
    rw [hk a y]
    by_cases h : le a y = true
    · simp [h]
    · simp [h, ih]

theorem sortOn_map {α : Type} (f : α → α) (le : α → α → Bool)
    (hk : ∀ u v, le (f u) (f v) = le u v) (l : List α) :
    sortOn le (l.map f) = (sortOn le l).map f := by
  induction l with
  | nil => rfl
  | cons a as ih =>
    simp only [List.map_cons, sortOn]
    rw [ih, insertOn_map f le hk]

theorem filter_map_substSet (l : List SetRow) (sid : Nat) (w : ℚ) (r : ℤ)
    (bw : Bool) (seId : Nat) :
    (l.map (fun s => if s.id = sid then
        { s with weight := w, reps := r, bodyweight := bw } else s)).filter
      (fun s => s.sessionExerciseId = seId) =
    (l.filter (fun s => s.sessionExerciseId = seId)).map (fun s =>
      if s.id = sid then { s with weight := w, reps := r, bodyweight := bw }
      else s) := by
  induction l with
  | nil => rfl
  | cons a as ih =>
    simp only [List.map_cons, List.filter_cons]
    by_cases h : a.id = sid <;> by_cases hs : a.sessionExerciseId = seId <;>
      simp [h, hs, ih]

theorem setsOf_updateSetRow (db : DB) (sid : Nat) (w : ℚ) (r : ℤ)
    (bw : Bool) (seId : Nat) :
    setsOf (updateSetRow db sid w r bw) seId = (setsOf db seId).map
      (fun s => if s.id = sid then
        { s with weight := w, reps := r, bodyweight := bw } else s) := by
  unfold setsOf updateSetRow
  dsimp only
  rw [filter_map_substSet]
  apply sortOn_map
  intro u v
  by_cases hu : u.id = sid <;> by_cases hv : v.id = sid <;> simp [hu, hv]

theorem setsOf_insertSetRow_last (db : DB) (seId : Nat) (w : ℚ) (r : ℤ)
    (bw : Bool) (now : Nat)
    (hts : ∀ x ∈ setsOf db seId, x.timestamp ≤ now) :
    setsOf (insertSetRow db seId w r bw now) seId =
      setsOf db seId ++ [⟨db.nextId, seId, w, r, bw, now⟩] := by
  unfold setsOf insertSetRow
  dsimp only
  rw [List.filter_append]
  rw [show List.filter (fun es => es.sessionExerciseId = seId)
      [(⟨db.nextId, seId, w, r, bw, now⟩ : SetRow)] =
      [⟨db.nextId, seId, w, r, bw, now⟩] by simp]
  apply sortOn_append_last
  intro x hx
  have hx2 : x ∈ setsOf db seId := by
    unfold setsOf
    exact (mem_sortOn _ _ _).mpr hx
  simpa using hts x hx2

theorem map_substSet_idem (l : List SetRow) (sid : Nat) (w : ℚ) (r : ℤ)
    (bw : Bool) :
    (l.map (fun s => if s.id = sid then
        { s with weight := w, reps := r, bodyweight := bw } else s)).map
      (fun s => if s.id = sid then
        { s with weight := w, reps := r, bodyweight := bw } else s) =
    l.map (fun s => if s.id = sid then
      { s with weight := w, reps := r, bodyweight := bw } else s) := by
  rw [List.map_map]
  apply List.map_congr_left
  intro x _
  by_cases h : x.id = sid <;> simp [Function.comp, h]

theorem map_substSet_fresh (l : List SetRow) (nid : Nat) (w : ℚ) (r : ℤ)
    (bw : Bool) (h : ∀ x ∈ l, x.id ≠ nid) :
    l.map (fun s => if s.id = nid then
      { s with weight := w, reps := r, bodyweight := bw } else s) = l := by
  rw [show l.map (fun s => if s.id = nid then
      { s with weight := w, reps := r, bodyweight := bw } else s) =
      l.map id from List.map_congr_left (fun x hx => by
        simp [h x hx])]
  exact List.map_id l

theorem updateSetRow_sets (db : DB) (sid : Nat) (w : ℚ) (r : ℤ) (bw : Bool) :
    (updateSetRow db sid w r bw).sets = db.sets.map (fun s =>
      if s.id = sid then { s with weight := w, reps := r, bodyweight := bw }
      else s) := rfl

theorem insertSetRow_sets (db : DB) (seId : Nat) (w : ℚ) (r : ℤ) (bw : Bool)
    (now : Nat) : (insertSetRow db seId w r bw now).sets =
      db.sets ++ [⟨db.nextId, seId, w, r, bw, now⟩] := rfl

theorem updateSetRow_progExercises (db : DB) (sid : Nat) (w : ℚ) (r : ℤ)
    (bw : Bool) :
    (updateSetRow db sid w r bw).progExercises = db.progExercises := rfl

theorem insertSetRow_progExercises (db : DB) (seId : Nat) (w : ℚ) (r : ℤ)
    (bw : Bool) (now : Nat) :
    (insertSetRow db seId w r bw now).progExercises = db.progExercises := rfl

theorem recordPr_progExercises (db : DB) (e : Nat) (w : ℚ) (r : ℤ) (est : ℚ)
    (now : Nat) :
    (recordPr db e w r est now).progExercises = db.progExercises := rfl

theorem editWrite_progExercises (db : DB) (a : EditArgs) (seId : Nat)
    (isBw : Bool) (pw : Option ℚ) (now : Nat) :
    (editWrite db a seId isBw pw now).progExercises = db.progExercises := by
  unfold editWrite
  repeat' split
  all_goals rfl

theorem programSets_congr {db1 db2 : DB} (b e : Nat)
    (h : db1.progExercises = db2.progExercises) :
    programSets db1 b e = programSets db2 b e := by
  unfold programSets
  rw [h]

theorem totalSets_congr (db1 db2 : DB) (b e seId : Nat)
    (hpe : programSets db1 b e = programSets db2 b e)
    (hlen : (setsOf db1 seId).length = (setsOf db2 seId).length) :
    totalSets db1 b e seId = totalSets db2 b e seId := by
  unfold totalSets
  rw [hpe, hlen]

theorem edit_fst_progExercises (db : DB) (a : EditArgs) (now : Nat) :
    (edit db a now).1.progExercises = db.progExercises := by
  unfold edit
  repeat' split
  all_goals try rfl
  all_goals simp [apply_ite Prod.fst, apply_ite DB.progExercises,
    recordPr_progExercises, editWrite_progExercises]

/-- Claim C6 (amended): Edit with identical arguments and an explicit set
index `s` is idempotent on the `exercise_sets` table provided `s` is within
the logged range or the immediate next slot (`s ≤ count + 1`): the first
call updates or creates the row at slot `s`, and the second call finds that
same row and updates it in place with the same values, leaving
`exercise_sets` identical.  When `s` exceeds `count + 1`, the insert lands
at slot `count + 1` instead of `s` and a repeat call inserts again — the
claim as stated fails there (see the counterexample).  Side hypotheses: the
clock is monotone, the fresh primary key is really fresh, and stored counts
lie within the `i32`/`i64` ranges the real database guarantees. -/
theorem C6_edit_idempotent_at_next_slot
    (db : DB) (a : EditArgs) (now now2 : Nat) (sess : SessionRow)
    (se : SessionExRow) (isBw : Bool) (pw : Option ℚ) (s : Nat)
    (hs : currentSession db = some sess)
    (hw : parseWeight a.weight = some (isBw, pw))
    (hse : nthByI64Offset (sessionExsOf db sess.id)
      (toI64 (usizeSub1 a.exercise)) = some se)
    (hset : a.set = some s)
    (h1 : 1 ≤ s) (hsmall : s + 1 < 2 ^ 63)
    (hle : s ≤ (setsOf db se.id).length + 1)
    (hok : ¬ (a.new = false ∧
      i64ToUsize (totalSets db sess.programBlockId se.exerciseId se.id) ≤
        editSetIndex db a se.id))
    (hts : ∀ x ∈ setsOf db se.id, x.timestamp ≤ now)
    (hfresh : ∀ x ∈ db.sets, x.id ≠ db.nextId)
    (hp : ∀ q ∈ programSets db sess.programBlockId se.exerciseId,
      0 ≤ q ∧ q < 2 ^ 63) :
    (edit (edit db a now).1 a now2).1.sets = (edit db a now).1.sets := by
  have h2 : s < USIZE := by
    unfold USIZE
    omega
  have hidx : editSetIndex db a se.id = s - 1 := by
    unfold editSetIndex
    rw [hset]
    exact usizeSub1_of_pos s h1 h2
  have hrun1 := edit_eq_of_resolved db a now sess se isBw pw hs hw hse
  have hsA : currentSession (edit db a now).1 = some sess := by
    rw [currentSession_congr (edit_fst_sessions db a now)]
    exact hs
  have hseA : nthByI64Offset (sessionExsOf (edit db a now).1 sess.id)
      (toI64 (usizeSub1 a.exercise)) = some se := by
    rw [sessionExsOf_congr sess.id (edit_fst_sessionExs db a now)]
    exact hse
  have hpeA : programSets (edit db a now).1 sess.programBlockId
      se.exerciseId = programSets db sess.programBlockId se.exerciseId :=
    programSets_congr _ _ (edit_fst_progExercises db a now)
  have hidxA : editSetIndex (edit db a now).1 a se.id = s - 1 := by
    unfold editSetIndex
    rw [hset]
    exact usizeSub1_of_pos s h1 h2
  have hrun2 := edit_eq_of_resolved (edit db a now).1 a now2 sess se isBw pw
    hsA hw hseA
  have hmod1 : ∀ dbx : DB, editSetIndex dbx a se.id = s - 1 →
      toI64 ((editSetIndex dbx a se.id + 1) % USIZE) =
        ((s - 1 : Nat) : Int) + 1 := by
    intro dbx hx
    rw [hx]
    rw [show (s - 1 + 1) % USIZE = s by
      unfold USIZE
      unfold USIZE at h2
      omega]
    rw [toI64_small s (by omega)]
    push_cast
    omega
  have hew : editWrite db a se.id isBw pw now =
      (match (setsOf db se.id)[s - 1]? with
        | some srow => updateSetRow db srow.id
            (if isBw then 0 else pw.getD 0) a.reps isBw
        | none => insertSetRow db se.id
            (if isBw then 0 else pw.getD 0) a.reps isBw now) := by
    unfold editWrite
    rw [hmod1 db hidx, nthSet_nat]
  have hewA : editWrite (edit db a now).1 a se.id isBw pw now2 =
      (match (setsOf (edit db a now).1 se.id)[s - 1]? with
        | some srow => updateSetRow (edit db a now).1 srow.id
            (if isBw then 0 else pw.getD 0) a.reps isBw
        | none => insertSetRow (edit db a now).1 se.id
            (if isBw then 0 else pw.getD 0) a.reps isBw now2) := by
    unfold editWrite
    rw [hmod1 (edit db a now).1 hidxA, nthSet_nat]
  cases hget : (setsOf db se.id)[s - 1]? with
  | some row =>
    simp only [hget] at hew
    have hA_sets : (edit db a now).1.sets =
        (updateSetRow db row.id (if isBw then 0 else pw.getD 0) a.reps
          isBw).sets := by
      rw [hrun1, if_neg hok]
      dsimp only
      split <;> simp [recordPr_sets, hew]
    have hsetsOfA : setsOf (edit db a now).1 se.id =
        (setsOf db se.id).map (fun x => if x.id = row.id then
          { x with
            weight := (if isBw then 0 else pw.getD 0),
            reps := a.reps, bodyweight := isBw } else x) := by
      rw [setsOf_congr se.id hA_sets, setsOf_updateSetRow]
    have hlenA : (setsOf (edit db a now).1 se.id).length =
        (setsOf db se.id).length := by
      rw [hsetsOfA, List.length_map]
    have htotA : totalSets (edit db a now).1 sess.programBlockId
        se.exerciseId se.id =
        totalSets db sess.programBlockId se.exerciseId se.id :=
      totalSets_congr _ _ _ _ _ hpeA hlenA
    have hokA : ¬ (a.new = false ∧
        i64ToUsize (totalSets (edit db a now).1 sess.programBlockId
          se.exerciseId se.id) ≤ editSetIndex (edit db a now).1 a se.id) := by
      rw [htotA, hidxA, ← hidx]
      exact hok
    have hgetA : (setsOf (edit db a now).1 se.id)[s - 1]? =
        some { row with
          weight := (if isBw then 0 else pw.getD 0),
          reps := a.reps, bodyweight := isBw } := by
      rw [hsetsOfA, List.getElem?_map, hget]
      simp
    simp only [hgetA] at hewA
    rw [hrun2, if_neg hokA]
    have hfinal : (editWrite (edit db a now).1 a se.id isBw pw now2).sets =
        (edit db a now).1.sets := by
      rw [hewA]
      rw [updateSetRow_sets, hA_sets, updateSetRow_sets]
      exact map_substSet_idem db.sets row.id _ a.reps isBw
    split <;> simp [recordPr_sets, hfinal]
  | none =>
    simp only [hget] at hew
    have hn : (setsOf db se.id).length = s - 1 := by
      have hl := List.getElem?_eq_none_iff.mp hget
      omega
    have hA_sets : (edit db a now).1.sets =
        (insertSetRow db se.id (if isBw then 0 else pw.getD 0) a.reps isBw
          now).sets := by
      rw [hrun1, if_neg hok]
      dsimp only
      split <;> simp [recordPr_sets, hew]
    have hsetsOfA : setsOf (edit db a now).1 se.id =
        setsOf db se.id ++ [⟨db.nextId, se.id,
          if isBw then 0 else pw.getD 0, a.reps, isBw, now⟩] := by
      rw [setsOf_congr se.id hA_sets]
      exact setsOf_insertSetRow_last db se.id _ a.reps isBw now hts
    have hlenA : (setsOf (edit db a now).1 se.id).length = s := by
      rw [hsetsOfA, List.length_append, hn]
      simp
      omega
    have hokA : ¬ (a.new = false ∧
        i64ToUsize (totalSets (edit db a now).1 sess.programBlockId
          se.exerciseId se.id) ≤ editSetIndex (edit db a now).1 a se.id) := by
      rw [hidxA]
      by_cases hnew : a.new = false
      · rintro ⟨-, hco⟩
        rw [hidx] at hok
        have hok2 : ¬ (i64ToUsize (totalSets db sess.programBlockId
            se.exerciseId se.id) ≤ s - 1) := fun hx => hok ⟨hnew, hx⟩
        cases hps : programSets db sess.programBlockId se.exerciseId with
        | none =>
          rw [totalSets_of_none _ _ _ _ (hpeA.trans hps)] at hco
          rw [totalSets_of_none _ _ _ _ hps] at hok2
          exact hok2 hco
        | some p =>
          obtain ⟨hp0, hplt⟩ := hp p (by rw [hps]; rfl)
          rw [totalSets_of_some _ _ _ _ p (hpeA.trans hps) hp0, hlenA]
            at hco
          rw [totalSets_of_some _ _ _ _ p hps hp0, hn] at hok2
          rw [i64ToUsize_small _ (by omega) (by
            unfold USIZE at h2
            omega)] at hco
          rw [i64ToUsize_small _ (by omega) (by
            unfold USIZE at h2
            omega)] at hok2
          omega
      · rintro ⟨hc, -⟩
        exact hnew hc
    have hgetA : (setsOf (edit db a now).1 se.id)[s - 1]? =
        some ⟨db.nextId, se.id, if isBw then 0 else pw.getD 0, a.reps, isBw,
          now⟩ := by
      rw [hsetsOfA, ← hn]
      exact List.getElem?_concat_length _ _
    simp only [hgetA] at hewA
    rw [hrun2, if_neg hokA]
    have hfinal : (editWrite (edit db a now).1 a se.id isBw pw now2).sets =
        (edit db a now).1.sets := by
      rw [hewA]
      rw [updateSetRow_sets, hA_sets, insertSetRow_sets]
      rw [List.map_append]
      rw [map_substSet_fresh db.sets db.nextId _ a.reps isBw hfresh]
      simp
    split <;> simp [recordPr_sets, hfinal]

/-- Witness for C6: explicit set index 1 on an exercise with no logged
sets — the second identical call leaves the set table unchanged. -/
theorem C6_witness :
    (edit (edit dbPresc3 ⟨1, WeightArg.kg 100, 5, some 1, false⟩ 7).1
        ⟨1, WeightArg.kg 100, 5, some 1, false⟩ 8).1.sets =
      (edit dbPresc3 ⟨1, WeightArg.kg 100, 5, some 1, false⟩ 7).1.sets := by
  refine C6_edit_idempotent_at_next_slot dbPresc3
    ⟨1, WeightArg.kg 100, 5, some 1, false⟩ 7 8 ⟨100, 10, 0, none⟩
    ⟨200, 100, 1, none⟩ false (some 100) 1 rfl rfl rfl rfl (by decide)
    (by decide) (by decide) (by decide) (by decide) (by decide) ?_
  intro q hq
  rw [show programSets dbPresc3 10 1 = some 3 from rfl] at hq
  simp only [Option.mem_def, Option.some.injEq] at hq
  subst hq
  decide

/-- Claim C1, counterexample.  The claim says the new-PR decision for a
weighted Edit compares estimated 1RMs (Epley) restricted to weighted
records and is never a weight × reps product.  Concretely: with a stored
record 80 kg × 15 (estimated 1RM 120), editing a 50 kg × 30 set is flagged
as a new record by the program — its product 1500 beats 1200 — although the
spec's rule says it is not one, since its estimated 1RM is 100 < 120. -/
theorem C1_counterexample :
    (edit dbPr120 ⟨1, WeightArg.kg 50, 30, none, false⟩ 7).2 =
      EditOutcome.logged 0 true ∧
    specWeightedNewRecord dbPr120 1 50 30 = false := by
  constructor
  · norm_num [edit, editSetIndex, editWrite, editIsPr, dbPr120, dbBase,
      exBench, currentSession, parseWeight, sessionExsOf, nthByI64Offset,
      toI64, usizeSub1, USIZE, setsOf, sortOn, insertOn, totalSets,
      programSets, i64ToUsize, nthSet, bestPR, bestBWReps, updateSetRow,
      insertSetRow, recordPr, epley_1rm]
  · norm_num [specWeightedNewRecord, dbPr120, dbBase, exBench, sortOn,
      insertOn, epley_1rm]

/-- Claim C2, counterexample.  The claim says a candidate whose metric
equals the current best is never recorded.  Concretely: with a stored
record 40 kg × 15 (estimated 1RM 60), editing a 30 kg × 30 set — whose
estimated 1RM is also exactly 60 — is recorded as a new personal record,
because the Edit-side weighted comparison is on weight × reps products
(900 > 600). -/
theorem C2_counterexample :
    (bestPR dbPr60 1).map (fun p => p.estimated1rm) = some 60 ∧
    epley_1rm 30 30 = 60 ∧
    (edit dbPr60 ⟨1, WeightArg.kg 30, 30, none, false⟩ 7).2 =
      EditOutcome.logged 0 true ∧
    (edit dbPr60 ⟨1, WeightArg.kg 30, 30, none, false⟩ 7).1.personalRecords =
      dbPr60.personalRecords ++ [⟨1, 30, 30, 60, 7, false⟩] := by
  refine ⟨?_, ?_, ?_, ?_⟩
  · norm_num [bestPR, dbPr60, dbBase, exBench, sortOn, insertOn]
  · norm_num [epley_1rm]
  · norm_num [edit, editSetIndex, editWrite, editIsPr, dbPr60, dbBase,
      exBench, currentSession, parseWeight, sessionExsOf, nthByI64Offset,
      toI64, usizeSub1, USIZE, setsOf, sortOn, insertOn, totalSets,
      programSets, i64ToUsize, nthSet, bestPR, bestBWReps, updateSetRow,
      insertSetRow, recordPr, epley_1rm]
  · norm_num [edit, editSetIndex, editWrite, editIsPr, dbPr60, dbBase,
      exBench, currentSession, parseWeight, sessionExsOf, nthByI64Offset,
      toI64, usizeSub1, USIZE, setsOf, sortOn, insertOn, totalSets,
      programSets, i64ToUsize, nthSet, bestPR, bestBWReps, updateSetRow,
      insertSetRow, recordPr, epley_1rm]

/-- Claim C3: for an End of an active session holding a logged set with
reps > 0 and no prior personal record for its exercise, the claim (and the
spec's End scenario) says exactly one Personal Record row is inserted and
the cache updated.  The code disagrees: its `is_pr` SQL compares against an
empty `current_pr` subquery, which yields NULL, decoded as false — End
completes, stamps the end timestamp, and inserts nothing.  This theorem
evaluates the model at the spec's own scenario (one 100 kg × 5 set, no
prior record): no record row is written and the cache is untouched. -/
theorem C3_end_without_prior_record_inserts_no_pr :
    (endSession dbOneSet 9).2 = EndOutcome.ended 100 ∧
    (endSession dbOneSet 9).1.personalRecords = [] ∧
    (endSession dbOneSet 9).1.exercises = [exBench] ∧
    (endSession dbOneSet 9).1.sessions = [⟨100, 10, 0, some 9⟩] := by
  refine ⟨?_, ?_, ?_, ?_⟩ <;>
    norm_num [endSession, endPrUpdates, dbOneSet, dbBase, exBench,
      sessionSetRows, sortOn, insertOn, distinctKeys, bestCandidate,
      endIsPr, bestPR, recordPr, epley_1rm, List.foldl, List.filterMap,
      List.find?, List.filter, List.map, List.any, Option.bind]

/-- Claim C5, counterexample.  The claim says an explicit 1-based set index
may exceed the prescribed set count with no upper bound enforced.
Concretely: with 3 prescribed sets and none logged, `Edit` with explicit
set index 5 (without `--new`) fails with the "no set at index" error and
persists nothing. -/
theorem C5_counterexample :
    edit dbPresc3 ⟨1, WeightArg.kg 100, 5, some 5, false⟩ 7 =
      (dbPresc3, EditOutcome.noSetAtIndex 5 3) := by
  norm_num [edit, editSetIndex, editWrite, editIsPr, dbPresc3, dbBase,
    exBench, currentSession, parseWeight, sessionExsOf, nthByI64Offset,
    toI64, usizeSub1, USIZE, setsOf, sortOn, insertOn, totalSets,
    programSets, i64ToUsize, nthSet, bestPR, bestBWReps, updateSetRow,
    insertSetRow, recordPr, epley_1rm]

/-- Claim C6, counterexample.  The claim says Edit with identical arguments
and an explicit set index is idempotent from any active-session state.
Concretely: with 3 prescribed sets and none logged, `Edit --set 3` passes
the bound check, finds no third row, and inserts; run twice it inserts
twice (one row after one call, two rows after two calls) — the inserted row
lands at the next free slot, not at slot 3. -/
theorem C6_counterexample :
    (edit dbPresc3 ⟨1, WeightArg.kg 100, 5, some 3, false⟩ 7).1.sets.length
      = 1 ∧
    (edit (edit dbPresc3 ⟨1, WeightArg.kg 100, 5, some 3, false⟩ 7).1
        ⟨1, WeightArg.kg 100, 5, some 3, false⟩ 8).1.sets.length = 2 := by
  constructor <;>
    norm_num [edit, editSetIndex, editWrite, editIsPr, dbPresc3, dbBase,
      exBench, currentSession, parseWeight, sessionExsOf, nthByI64Offset,
      toI64, usizeSub1, USIZE, setsOf, sortOn, insertOn, totalSets,
      programSets, i64ToUsize, nthSet, bestPR, bestBWReps, updateSetRow,
      insertSetRow, recordPr, epley_1rm, List.foldl, List.filterMap,
      List.find?, List.filter, List.map, List.range, Option.bind] <;>
    simp

/-- Claim C8, counterexample.  The claim says that after a PR-affecting
mutation the exercise's cached best fields equal those of the authoritative
record (the stored record with the highest estimated 1RM).  Concretely:
from a stored record 80 kg × 15 (estimated 1RM 120, mirrored in the
cache), editing 50 kg × 30 is flagged as a record (product 1500 > 1200) and
the cache is overwritten with the new record's estimated 1RM 100 — but the
authoritative record still has estimated 1RM 120. -/
theorem C8_counterexample :
    (edit dbPr120 ⟨1, WeightArg.kg 50, 30, none, false⟩ 7).1.exercises =
      [⟨1, "Bench Press", some 100, some 7⟩] ∧
    (bestPR (edit dbPr120 ⟨1, WeightArg.kg 50, 30, none, false⟩ 7).1 1).map
      (fun p => p.estimated1rm) = some 120 ∧
    (100 : ℚ) ≠ 120 := by
  refine ⟨?_, ?_, by norm_num⟩ <;>
    norm_num [edit, editSetIndex, editWrite, editIsPr, dbPr120, dbBase,
      exBench, currentSession, parseWeight, sessionExsOf, nthByI64Offset,
      toI64, usizeSub1, USIZE, setsOf, sortOn, insertOn, totalSets,
      programSets, i64ToUsize, nthSet, bestPR, bestBWReps, updateSetRow,
      insertSetRow, recordPr, epley_1rm]

/-- Claim C9: it says Edit with an exercise index of 0 reports a domain
error and returns normally.  The code computes `exercise - 1` on a `usize`:
a build with overflow checks aborts; in release the value wraps to
2^64 − 1, is cast to the `i64` −1, and SQLite clamps the negative OFFSET to
0 — so `session edit 0 100 5` silently resolves the FIRST session exercise
and logs a set against it, reporting success and no domain error.  This
theorem evaluates the model (wrapping semantics) at that input: the
outcome is `logged` and a set row is written for session-exercise 200. -/
theorem C9_edit_exercise_index_zero_logs_first_exercise :
    (edit dbBase ⟨0, WeightArg.kg 100, 5, none, false⟩ 7).2 =
      EditOutcome.logged 0 true ∧
    (edit dbBase ⟨0, WeightArg.kg 100, 5, none, false⟩ 7).1.sets =
      [⟨1000, 200, 100, 5, false, 7⟩] := by
  constructor <;>
    norm_num [edit, editSetIndex, editWrite, editIsPr, dbBase, exBench,
      currentSession, parseWeight, sessionExsOf, nthByI64Offset, toI64,
      usizeSub1, USIZE, setsOf, sortOn, insertOn, totalSets, programSets,
      i64ToUsize, nthSet, bestPR, bestBWReps, updateSetRow, insertSetRow,
      recordPr, epley_1rm]

end Lazaro
